import Mathlib

/-!
# Verification of the whatsmeow HTTP-bridge client

Shallow embedding of `client.go` (and the 4-column variant in the unnamed
source part): the inbound message classifier, the CSV append log (Go
`encoding/csv` writer/reader semantics), the media store, the QR-code file
and handlers, and the send handler. Effects (download results, filesystem
success, wall-clock readings) are passed explicitly as environment values.
-/

deriving instance DecidableEq for Except

namespace Whatsmeow

/-! ## Generic helpers -/

/-- Strong induction on the length of a list. -/
theorem list_strong_ind {α : Type} {P : List α → Prop}
    (h : ∀ s : List α, (∀ t : List α, t.length < s.length → P t) → P s) :
    ∀ s : List α, P s := by
  have key : ∀ n : Nat, ∀ s : List α, s.length ≤ n → P s := by
    intro n
    induction n with
    | zero =>
      intro s hs
      exact h s (fun t ht => absurd (Nat.lt_of_lt_of_le ht hs) (Nat.not_lt_zero _))
    | succ n ih =>
      intro s hs
      exact h s (fun t ht => ih t (Nat.le_of_lt_succ (Nat.lt_of_lt_of_le ht hs)))
  exact fun s => key s.length s (Nat.le_refl _)

/-! ## CSV writer (Go `encoding/csv` `Writer`, `Comma = ','`, `UseCRLF = false`)

`writeToCSV` in `client.go` uses `csv.NewWriter` and `writer.Write`.  The Go
writer quotes a field iff `fieldNeedsQuotes` holds: the field is `\.`, or it
contains the comma, a double quote, CR or LF, or its first rune is white
space (`unicode.IsSpace`; modelled here on its Latin-1 range, which is the
only part that matters for the claims).  Inside a quoted field only `"` is
escaped (doubled); with `UseCRLF = false`, CR and LF are written verbatim
and each record is terminated by a single `\n`. -/

/-- Latin-1 fragment of Go `unicode.IsSpace`: `\t \n \v \f \r ' '` U+0085 U+00A0. -/
def isSpaceGo (c : Char) : Bool :=
  c = ' ' || c = '\t' || c = '\n' || c = '\r' ||
  c.toNat = 11 || c.toNat = 12 || c.toNat = 133 || c.toNat = 160

/-- Go `csv.Writer.fieldNeedsQuotes` for `Comma = ','`. -/
def fieldNeedsQuotes (f : String) : Bool :=
  if f = "" then false
  else if f = "\\." then true
  else if f.data.any (fun c => c = ',' || c = '"' || c = '\r' || c = '\n') then true
  else match f.data with
    | [] => false
    | c :: _ => isSpaceGo c

/-- Body of a quoted field as the Go writer emits it: `"` doubled, all other
characters (CR and LF included, since `UseCRLF = false`) verbatim. -/
def encodeQuotedBody : List Char → List Char
  | [] => []
  | c :: t => if c = '"' then '"' :: '"' :: encodeQuotedBody t else c :: encodeQuotedBody t

/-- One field as the Go writer emits it. -/
def encodeField (f : String) : List Char :=
  if fieldNeedsQuotes f then '"' :: (encodeQuotedBody f.data ++ ['"']) else f.data

/-- Fields after the first one: each preceded by the comma; record ends in `\n`. -/
def encodeRowTail : List String → List Char
  | [] => ['\n']
  | g :: gs => ',' :: (encodeField g ++ encodeRowTail gs)

/-- One record line as `csv.Writer.Write` emits it (`UseCRLF = false`). -/
def encodeRow : List String → List Char
  | [] => ['\n']
  | g :: gs => encodeField g ++ encodeRowTail gs

/-- The CSV log file: its raw byte (character) content. A missing file is
created empty by `os.OpenFile(..., O_APPEND|O_CREATE|O_WRONLY, ...)`. -/
structure CSVFile where
  content : List Char
deriving DecidableEq, Repr

def emptyCSV : CSVFile := ⟨[]⟩

/-- Header written by `writeToCSV` in `client.go`. -/
def headerRow : List String := ["id", "phone", "type", "text", "datetime"]

/-- `writeToCSV(sender, messageType, message, timestamp)` from `client.go`:
under the mutex, open append-or-create, write the header iff `Stat().Size() == 0`,
then write one record `[UnixNano, sender, messageType, message, timestamp]`.
`nowNanos` is the `time.Now().UnixNano()` reading. -/
def writeToCSV (nowNanos : Nat) (sender messageType message timestamp : String)
    (st : CSVFile) : CSVFile :=
  let base := if st.content.isEmpty then st.content ++ encodeRow headerRow else st.content
  ⟨base ++ encodeRow [Nat.repr nowNanos, sender, messageType, message, timestamp]⟩

/-- Header written by the 4-column `writeToCSV` variant in the unnamed part. -/
def headerRow4 : List String := ["id", "phone", "text", "datetime"]

/-- The 4-column `writeToCSV(sender, message, timestamp)` variant
(`src/unnamed/part_000`): same locking/append/header-iff-empty logic, record
`[UnixNano, sender, message, timestamp.Format(RFC3339)]`.  The timestamp is
passed here already formatted. -/
def writeToCSV4 (nowNanos : Nat) (sender message timestampStr : String)
    (st : CSVFile) : CSVFile :=
  let base := if st.content.isEmpty then st.content ++ encodeRow headerRow4 else st.content
  ⟨base ++ encodeRow [Nat.repr nowNanos, sender, message, timestampStr]⟩

/-- One append-log record, as the arguments of `writeToCSV` plus the
`UnixNano` id generated inside it. -/
structure LogEntry where
  nowNanos : Nat
  sender : String
  messageType : String
  message : String
  timestamp : String
deriving DecidableEq, Repr

def rowOfEntry (e : LogEntry) : List String :=
  [Nat.repr e.nowNanos, e.sender, e.messageType, e.message, e.timestamp]

def writeEntry (e : LogEntry) (st : CSVFile) : CSVFile :=
  writeToCSV e.nowNanos e.sender e.messageType e.message e.timestamp st

def appendAll (es : List LogEntry) (st : CSVFile) : CSVFile :=
  es.foldl (fun s e => writeEntry e s) st

/-- One record of the 4-column variant. -/
structure LogEntry4 where
  nowNanos : Nat
  sender : String
  message : String
  timestamp : String
deriving DecidableEq, Repr

def rowOfEntry4 (e : LogEntry4) : List String :=
  [Nat.repr e.nowNanos, e.sender, e.message, e.timestamp]

def writeEntry4 (e : LogEntry4) (st : CSVFile) : CSVFile :=
  writeToCSV4 e.nowNanos e.sender e.message e.timestamp st

def appendAll4 (es : List LogEntry4) (st : CSVFile) : CSVFile :=
  es.foldl (fun s e => writeEntry4 e s) st

/-! ## CSV reader (Go `encoding/csv` `Reader`, default configuration)

`getCSVContentsHandler` uses `csv.NewReader(file).ReadAll()`.  The Go reader
reads physical lines and rewrites a terminating `\r\n` into `\n`; since every
`\r\n` pair in the stream ends a physical line, this is the same as replacing
every (left-to-right, non-overlapping) `\r\n` pair in the whole content by
`\n` up front, which is how it is modelled (`normalizeCRLF`).  On the
normalized stream the reader is a character machine: lines that are just a
newline are skipped at record starts; a field starting with `"` is quoted,
with `""` as the escaped quote, and a closing quote must be followed by the
comma, a newline or EOF (`ErrBareQuote` otherwise, since `LazyQuotes` is
false); a bare `"` inside a non-quoted field is also `ErrBareQuote`; EOF
inside a quoted field is `ErrQuote`.  `ReadAll` additionally requires every
record to have as many fields as the first one (`FieldsPerRecord = 0`). -/

/-- Replace every (left-to-right) `\r\n` pair by `\n`. -/
def normalizeCRLF : List Char → List Char
  | [] => []
  | [c] => [c]
  | c :: d :: t =>
    if c = '\r' ∧ d = '\n' then '\n' :: normalizeCRLF t
    else c :: normalizeCRLF (d :: t)

/-- Does the list contain a CR immediately followed by LF? -/
def containsCRLF : List Char → Bool
  | [] => false
  | [_] => false
  | c :: d :: t => if c = '\r' ∧ d = '\n' then true else containsCRLF (d :: t)

inductive CSVMode where
  | recStart    -- at the start of a record (blank lines are skipped here)
  | fieldStart  -- just after a comma
  | inField     -- inside a non-quoted field
  | inQuotes    -- inside a quoted field
  | quoteEnd    -- just after a quote while inside a quoted field
deriving DecidableEq, Repr

inductive CSVErr where
  | bareQuote   -- Go csv.ErrBareQuote
  | unterminated -- Go csv.ErrQuote
  | fieldCount  -- Go csv.ErrFieldCount
deriving DecidableEq, Repr

/-- The record scanner of the Go reader, over the CRLF-normalized content.
`f` is the current field, `row` the current record, `rows` the finished
records. -/
def csvScan : List Char → CSVMode → List Char → List String →
    List (List String) → Except CSVErr (List (List String))
  | [], m, f, row, rows =>
    match m with
    | .recStart => .ok rows
    | .inQuotes => .error .unterminated
    | _ => .ok (rows ++ [row ++ [String.mk f]])
  | c :: t, m, f, row, rows =>
    match m with
    | .recStart =>
      if c = '\n' then csvScan t .recStart f row rows
      else if c = '"' then csvScan t .inQuotes f row rows
      else if c = ',' then csvScan t .fieldStart [] (row ++ [String.mk f]) rows
      else csvScan t .inField (f ++ [c]) row rows
    | .fieldStart =>
      if c = '\n' then csvScan t .recStart [] [] (rows ++ [row ++ [String.mk f]])
      else if c = '"' then csvScan t .inQuotes f row rows
      else if c = ',' then csvScan t .fieldStart [] (row ++ [String.mk f]) rows
      else csvScan t .inField (f ++ [c]) row rows
    | .inField =>
      if c = '\n' then csvScan t .recStart [] [] (rows ++ [row ++ [String.mk f]])
      else if c = '"' then .error .bareQuote
      else if c = ',' then csvScan t .fieldStart [] (row ++ [String.mk f]) rows
      else csvScan t .inField (f ++ [c]) row rows
    | .inQuotes =>
      if c = '"' then csvScan t .quoteEnd f row rows
      else csvScan t .inQuotes (f ++ [c]) row rows
    | .quoteEnd =>
      if c = '"' then csvScan t .inQuotes (f ++ ['"']) row rows
      else if c = ',' then csvScan t .fieldStart [] (row ++ [String.mk f]) rows
      else if c = '\n' then csvScan t .recStart [] [] (rows ++ [row ++ [String.mk f]])
      else .error .bareQuote

/-- `csv.Reader.ReadAll` on the raw file content. -/
def readAllCSV (content : List Char) : Except CSVErr (List (List String)) :=
  match csvScan (normalizeCRLF content) .recStart [] [] [] with
  | .error e => .error e
  | .ok rows =>
    match rows with
    | [] => .ok []
    | r0 :: _ =>
      if rows.all (fun r => r.length = r0.length) then .ok rows
      else .error .fieldCount

/-- `getCSVContentsHandler`: 500 if the file cannot be opened or read,
otherwise the parsed rows (the `data` payload). `none` models a missing file. -/
def getCSVContentsHandler (st : Option CSVFile) : Except Nat (List (List String)) :=
  match st with
  | none => .error 500
  | some file =>
    match readAllCSV file.content with
    | .error _ => .error 500
    | .ok rows => .ok rows

/-! ## Protocol message model (`waProto.Message` fields used by the handler)

Only the fields `handleReceivedMessage` inspects are modelled.  A proto
getter on an absent sub-message returns the zero value, hence
`conversation : String` (zero value `""`) and `Option` sub-messages.
Location coordinates are `float64` rendered with `%f`; floating point is
abstracted as the already-rendered coordinate strings, which is all the
handler uses them for. -/

structure ExtendedTextMessage where
  text : String
deriving DecidableEq, Repr

structure ImageMessage where
  caption : String
deriving DecidableEq, Repr

structure VideoMessage where
  caption : String
deriving DecidableEq, Repr

structure DocumentMessage where
  fileName : String
deriving DecidableEq, Repr

structure AudioMessage where
  mimetype : String
deriving DecidableEq, Repr

structure ContactMessage where
  displayName : String
deriving DecidableEq, Repr

structure LocationMessage where
  latitudeStr : String   -- `%f` rendering of GetDegreesLatitude()
  longitudeStr : String  -- `%f` rendering of GetDegreesLongitude()
deriving DecidableEq, Repr

structure WAMessage where
  conversation : String
  extendedTextMessage : Option ExtendedTextMessage
  imageMessage : Option ImageMessage
  videoMessage : Option VideoMessage
  documentMessage : Option DocumentMessage
  audioMessage : Option AudioMessage
  contactMessage : Option ContactMessage
  locationMessage : Option LocationMessage
deriving DecidableEq, Repr

/-- `types.JID` from whatsmeow (the fields its `String()` method reads). -/
structure JID where
  user : String
  rawAgent : Nat
  device : Nat
  server : String
deriving DecidableEq, Repr

/-- `types.NewJID(user, server)`. -/
def NewJID (user server : String) : JID :=
  { user := user, rawAgent := 0, device := 0, server := server }

/-- whatsmeow `JID.String()`:
`user.agent:device@server` when the agent is set, `user:device@server` when
only the device is set, `user@server` when the user is non-empty, and the
bare server otherwise. -/
def JID.toStr (j : JID) : String :=
  if j.rawAgent > 0 then
    j.user ++ "." ++ Nat.repr j.rawAgent ++ ":" ++ Nat.repr j.device ++ "@" ++ j.server
  else if j.device > 0 then
    j.user ++ ":" ++ Nat.repr j.device ++ "@" ++ j.server
  else if j.user.length > 0 then
    j.user ++ "@" ++ j.server
  else
    j.server

/-- A Go `time.Time` value, reduced to the components that the RFC3339
layout `2006-01-02T15:04:05Z07:00` prints. -/
structure GoTime where
  year : Nat
  month : Nat
  day : Nat
  hour : Nat
  minute : Nat
  second : Nat
  tzOffsetMinutes : Int
deriving DecidableEq, Repr

/-- Zero-pad a number to (at least) two digits, as the layout `01` does. -/
def pad2 (n : Nat) : String :=
  if n < 10 then "0" ++ Nat.repr n else Nat.repr n

/-- Zero-pad the year to (at least) four digits, as the layout `2006` does. -/
def padYear (n : Nat) : String :=
  if n < 10 then "000" ++ Nat.repr n
  else if n < 100 then "00" ++ Nat.repr n
  else if n < 1000 then "0" ++ Nat.repr n
  else Nat.repr n

/-- Go `t.Format(time.RFC3339)`. -/
def GoTime.formatRFC3339 (t : GoTime) : String :=
  padYear t.year ++ "-" ++ pad2 t.month ++ "-" ++ pad2 t.day ++ "T" ++
  pad2 t.hour ++ ":" ++ pad2 t.minute ++ ":" ++ pad2 t.second ++
  (if t.tzOffsetMinutes = 0 then "Z"
   else (if t.tzOffsetMinutes > 0 then "+" else "-") ++
     pad2 (t.tzOffsetMinutes.natAbs / 60) ++ ":" ++ pad2 (t.tzOffsetMinutes.natAbs % 60))

/-- `events.Message`: the `Info` fields used plus the payload. -/
structure EventsMessage where
  sender : JID       -- message.Info.Sender
  timestamp : GoTime -- message.Info.Timestamp
  message : WAMessage
deriving DecidableEq, Repr

/-! ## Message classifier -/

inductive ContentKind where
  | Text | ExtendedText | Image | Video | Document | Audio | Contact | Location | Unknown
deriving DecidableEq, Repr

/-- The kind `handleReceivedMessage` dispatches on: the `if/else if` chain
`GetConversation() != ""`, `GetExtendedTextMessage() != nil`,
`GetImageMessage() != nil`, `GetVideoMessage() != nil`,
`GetDocumentMessage() != nil`, `GetAudioMessage() != nil`,
`GetContactMessage() != nil`, `GetLocationMessage() != nil`, else Unknown. -/
def classify (msg : WAMessage) : ContentKind :=
  if msg.conversation != "" then .Text
  else if msg.extendedTextMessage.isSome then .ExtendedText
  else if msg.imageMessage.isSome then .Image
  else if msg.videoMessage.isSome then .Video
  else if msg.documentMessage.isSome then .Document
  else if msg.audioMessage.isSome then .Audio
  else if msg.contactMessage.isSome then .Contact
  else if msg.locationMessage.isSome then .Location
  else .Unknown

def isTextMsg (m : WAMessage) : Bool := m.conversation != ""
def isExtendedTextMsg (m : WAMessage) : Bool := m.extendedTextMessage.isSome
def isImageMsg (m : WAMessage) : Bool := m.imageMessage.isSome
def isVideoMsg (m : WAMessage) : Bool := m.videoMessage.isSome
def isDocumentMsg (m : WAMessage) : Bool := m.documentMessage.isSome
def isAudioMsg (m : WAMessage) : Bool := m.audioMessage.isSome
def isContactMsg (m : WAMessage) : Bool := m.contactMessage.isSome
def isLocationMsg (m : WAMessage) : Bool := m.locationMessage.isSome

/-- The structural predicates of the nine kinds, in the spec's precedence
order (Unknown, the fallback, is not listed). -/
def kindChecks : List (ContentKind × (WAMessage → Bool)) :=
  [(.Text, isTextMsg), (.ExtendedText, isExtendedTextMsg), (.Image, isImageMsg),
   (.Video, isVideoMsg), (.Document, isDocumentMsg), (.Audio, isAudioMsg),
   (.Contact, isContactMsg), (.Location, isLocationMsg)]

/-- Modelled from the spec's words ("evaluating predicates in that order and
stopping at the first match", "a message satisfying none is classified
Unknown"): the first predicate of `kindChecks` that holds, else Unknown.
Compared against `classify`, the definition taken from the source. -/
def firstMatchKind (m : WAMessage) : ContentKind :=
  match kindChecks.find? (fun p => p.2 m) with
  | some p => p.1
  | none => .Unknown

/-! ## Media store (`saveMedia`) -/

/-- The `switch mediaType` assigning the static extension. -/
def extensionFor (mediaType : String) : String :=
  if mediaType = "image" then ".jpg"
  else if mediaType = "video" then ".mp4"
  else if mediaType = "audio" then ".ogg"
  else if mediaType = "document" then ".pdf"
  else ""

/-- `saveMedia(mediaType, mediaData)`: `MkdirAll("media/<type>")` (may fail),
filename `<dir>/<UnixNano><ext>`, `os.WriteFile` (may fail), returning the
path.  `mkdirOk`/`writeOk` are the outcomes of the two filesystem calls and
`nowNanos` the `time.Now().UnixNano()` reading. -/
def saveMedia (mkdirOk : Bool) (nowNanos : Nat) (writeOk : Bool)
    (mediaType : String) (mediaData : List Nat) : Except Unit String :=
  if mkdirOk = false then .error ()
  else
    let dir := "media/" ++ mediaType
    let filename := dir ++ "/" ++ Nat.repr nowNanos ++ extensionFor mediaType
    if writeOk = false then .error () else .ok filename

/-! ## Inbound message handler -/

/-- External effects of one `handleReceivedMessage` run: the result of
`client.Download` for the message's media (if reached), the filesystem
outcomes inside `saveMedia`, its `UnixNano` reading, and the `UnixNano`
reading inside `writeToCSV`. -/
structure HandlerEnv where
  download : Except Unit (List Nat)
  mkdirOk : Bool
  mediaNow : Nat
  writeOk : Bool
  csvNow : Nat
deriving DecidableEq, Repr

/-- The media arm of `handleReceivedMessage` (the source repeats this
download/save/append sequence verbatim for each of image, video, document
and audio): `client.Download` (early `return` on error, record skipped),
`saveMedia` (early `return` on error, record skipped), then one `writeToCSV`
whose text is built by `mkSummary` from the saved path. -/
def handleMedia (env : HandlerEnv) (mediaType label : String)
    (mkSummary : String → String) (sender timestamp : String)
    (st : CSVFile) : CSVFile :=
  match env.download with
  | .error _ => st
  | .ok mediaData =>
    match saveMedia env.mkdirOk env.mediaNow env.writeOk mediaType mediaData with
    | .error _ => st
    | .ok path => writeToCSV env.csvNow sender label (mkSummary path) timestamp st

/-- `handleReceivedMessage(message)` from `client.go`: classify by the
`if/else if` chain; non-media kinds append one record directly; media kinds
run the download/save/append sequence (`handleMedia`); the fallback appends
an `Unknown` record.  Returns the new log state. -/
def handleReceivedMessage (env : HandlerEnv) (message : EventsMessage)
    (st : CSVFile) : CSVFile :=
  let sender := message.sender.toStr
  let msg := message.message
  let timestamp := message.timestamp.formatRFC3339
  if msg.conversation != "" then
    writeToCSV env.csvNow sender "Conversation" msg.conversation timestamp st
  else match msg.extendedTextMessage with
  | some extendedText => writeToCSV env.csvNow sender "ExtendedText" extendedText.text timestamp st
  | none => match msg.imageMessage with
    | some imageMessage =>
      handleMedia env "image" "Image"
        (fun imagePath => "Caption: " ++ imageMessage.caption ++ ", Path: " ++ imagePath)
        sender timestamp st
    | none => match msg.videoMessage with
      | some videoMessage =>
        handleMedia env "video" "Video"
          (fun videoPath => "Caption: " ++ videoMessage.caption ++ ", Path: " ++ videoPath)
          sender timestamp st
      | none => match msg.documentMessage with
        | some documentMessage =>
          handleMedia env "document" "Document"
            (fun documentPath => "FileName: " ++ documentMessage.fileName ++ ", Path: " ++ documentPath)
            sender timestamp st
        | none => match msg.audioMessage with
          | some _ =>
            handleMedia env "audio" "Audio" (fun audioPath => audioPath)
              sender timestamp st
          | none => match msg.contactMessage with
            | some contactMessage =>
              writeToCSV env.csvNow sender "Contact" contactMessage.displayName timestamp st
            | none => match msg.locationMessage with
              | some locationMessage =>
                writeToCSV env.csvNow sender "Location"
                  ("Lat: " ++ locationMessage.latitudeStr ++ ", Long: " ++ locationMessage.longitudeStr)
                  timestamp st
              | none =>
                writeToCSV env.csvNow sender "Unknown" "Unknown message type" timestamp st

/-! ## Send path (`sendMessage`, `sendMessageHandler`) -/

/-- The JSON body of `POST /send`; `none` models an absent field. -/
structure SendRequest where
  jid : Option String
  text : Option String
deriving DecidableEq, Repr

/-- gin `ShouldBindJSON` with `binding:"required"` on both string fields:
binding fails when a field is absent or is the zero value `""`. -/
def bindSendRequest (req : SendRequest) : Option (String × String) :=
  match req.jid, req.text with
  | some jid, some text => if jid = "" || text = "" then none else some (jid, text)
  | _, _ => none

/-- External effects of one send: the outcome of `client.SendMessage` and
the clock readings used for the sent-record CSV line. -/
structure SendEnv where
  sendOk : Bool
  csvNow : Nat
  now : GoTime
deriving DecidableEq, Repr

/-- `sendMessage(client, jid, text)`: build `types.NewJID(jid, "s.whatsapp.net")`,
send `&waProto.Message{Conversation: text}`; on success append the record
("me", "SentMessage", text, now) to the CSV.  Returns the attempted target,
whether the send succeeded, and the new log state. -/
def sendMessage (env : SendEnv) (jid text : String) (st : CSVFile) :
    JID × Bool × CSVFile :=
  let targetJID := NewJID jid "s.whatsapp.net"
  if env.sendOk = false then (targetJID, false, st)
  else (targetJID, true,
    writeToCSV env.csvNow "me" "SentMessage" text env.now.formatRFC3339 st)

/-- Observable outcome of `sendMessageHandler`: HTTP status, the target JID
of the outbound send if one was attempted, and the log state afterwards. -/
structure HandlerResult where
  status : Nat
  attemptedTarget : Option JID
  log : CSVFile
deriving DecidableEq, Repr

/-- `sendMessageHandler`: 400 when binding fails (no send, no append);
otherwise call `sendMessage` and answer 500 on failure, 200 on success. -/
def sendMessageHandler (env : SendEnv) (req : SendRequest) (st : CSVFile) :
    HandlerResult :=
  match bindSendRequest req with
  | none => { status := 400, attemptedTarget := none, log := st }
  | some (jid, text) =>
    let r := sendMessage env jid text st
    if r.2.1 = false then { status := 500, attemptedTarget := some r.1, log := st }
    else { status := 200, attemptedTarget := some r.1, log := r.2.2 }

/-! ## QR code file and handlers -/

/-- `saveQRCode(code)`: `os.Create("qrcode.txt")` truncates, then the code is
written — whole-file replace.  The state is the file's contents (`none` =
absent). -/
def saveQRCode (code : String) (_st : Option String) : Option String :=
  some code

/-- `generateQRTextHandler`: read `qrcode.txt` (500 if unreadable), answer
`{qr_code: <contents>}`. -/
def generateQRTextHandler (qrFile : Option String) : Except Nat String :=
  match qrFile with
  | none => .error 500
  | some code => .ok code

/-- An in-memory Go `image.Image`, reduced to its pixel dimensions. -/
structure GoImage where
  width : Nat
  height : Nat
deriving DecidableEq, Repr

/-- Modelled from the spec: the external `skip2/go-qrcode` library's
`qr.Image(size)` ("renders it as a fixed-size square barcode image") returns
a square image of the requested positive pixel size.  The library is an
out-of-scope collaborator; only this contract is used. -/
def qrImage (_code : String) (size : Nat) : GoImage :=
  { width := size, height := size }

/-- Failure switches for the photo handler's two fallible library calls
(`qrcode.New` and `png.Encode`). -/
structure QREnv where
  qrNewOk : Bool
  pngOk : Bool
deriving DecidableEq, Repr

/-- `generateQRPhotoHandler`: read `qrcode.txt` (500 if unreadable), build
the QR code (500 on failure), render `qr.Image(256)`, PNG-encode it (500 on
failure) and answer the image. -/
def generateQRPhotoHandler (env : QREnv) (qrFile : Option String) :
    Except Nat GoImage :=
  match qrFile with
  | none => .error 500
  | some code =>
    if env.qrNewOk = false then .error 500
    else
      let img := qrImage code 256
      if env.pngOk = false then .error 500
      else .ok img

/-! ## Theorems: classifier (C1) -/

/-- **C1.** The classifier assigns exactly one content kind by evaluating
the structural predicates in the fixed precedence order Text, ExtendedText,
Image, Video, Document, Audio, Contact, Location, stopping at the first that
matches, and falling back to Unknown when none does: `classify` (from the
source's `if/else if` chain) coincides with the spec-side first-match
dispatch over `kindChecks` for every message, so a message satisfying two
predicates gets the earlier kind and a message satisfying none gets
Unknown. -/
theorem classify_eq_firstMatchKind (m : WAMessage) :
    classify m = firstMatchKind m := by
  unfold classify firstMatchKind kindChecks
  simp only [List.find?]
  cases h1 : isTextMsg m <;>
    cases h2 : isExtendedTextMsg m <;>
      cases h3 : isImageMsg m <;>
        cases h4 : isVideoMsg m <;>
          cases h5 : isDocumentMsg m <;>
            cases h6 : isAudioMsg m <;>
              cases h7 : isContactMsg m <;>
                cases h8 : isLocationMsg m <;>
    simp_all [isTextMsg, isExtendedTextMsg, isImageMsg, isVideoMsg,
      isDocumentMsg, isAudioMsg, isContactMsg, isLocationMsg]

/-! ## Theorems: media store (C9) -/

/-- **C9.** A successful media save produces the path
`media/<kind>/<nanoseconds><extension>`: the type-segmented directory, a
filename that is the wall-clock nanosecond reading, and a static extension
determined only by the kind (`.jpg`/`.mp4`/`.ogg`/`.pdf` for
image/video/audio/document, empty otherwise); the result never depends on
the payload bytes. -/
theorem saveMedia_path_shape (mkdirOk writeOk : Bool) (nowNanos : Nat)
    (mediaType : String) (mediaData : List Nat) (p : String)
    (h : saveMedia mkdirOk nowNanos writeOk mediaType mediaData = .ok p) :
    p = "media/" ++ mediaType ++ "/" ++ Nat.repr nowNanos ++ extensionFor mediaType
    ∧ (∀ otherData : List Nat,
        saveMedia mkdirOk nowNanos writeOk mediaType otherData = .ok p)
    ∧ extensionFor "image" = ".jpg" ∧ extensionFor "video" = ".mp4"
    ∧ extensionFor "audio" = ".ogg" ∧ extensionFor "document" = ".pdf"
    ∧ (mediaType ∉ ["image", "video", "audio", "document"] →
        extensionFor mediaType = "") := by
  unfold saveMedia at h
  rcases mkdirOk with _ | _
  · simp at h
  · rcases writeOk with _ | _
    · simp at h
    · simp only [Bool.true_eq_false, if_false, reduceIte] at h
      have hp : "media/" ++ mediaType ++ "/" ++ Nat.repr nowNanos
          ++ extensionFor mediaType = p := by
        simpa using h
      refine ⟨hp.symm, ?_, by decide, by decide, by decide, by decide, ?_⟩
      · intro otherData
        simp [saveMedia, hp]
      · intro hne
        simp only [List.mem_cons, List.not_mem_nil, or_false] at hne
        push_neg at hne
        simp [extensionFor, hne.1, hne.2.1, hne.2.2.1, hne.2.2.2]

/-- Witness for C9 at a concrete input. -/
theorem saveMedia_path_shape_witness :
    saveMedia true 42 true "image" [1, 2] = .ok "media/image/42.jpg"
    ∧ "media/image/42.jpg"
        = "media/" ++ "image" ++ "/" ++ Nat.repr 42 ++ extensionFor "image" := by
  refine ⟨by decide, ?_⟩
  exact (saveMedia_path_shape true true 42 "image" [1, 2] "media/image/42.jpg" (by decide)).1

/-! ## Theorems: send handler (C5, C10) -/

/-- **C5.** A `POST /send` whose `text` field is absent or the empty string
is rejected by the binding step: the handler answers 400, attempts no
outbound send, and leaves the append log untouched. -/
theorem send_empty_text_rejected (env : SendEnv) (req : SendRequest)
    (st : CSVFile) (h : req.text = none ∨ req.text = some "") :
    sendMessageHandler env req st
      = { status := 400, attemptedTarget := none, log := st } := by
  unfold sendMessageHandler bindSendRequest
  rcases h with h | h <;> rw [h] <;> cases hj : req.jid <;> simp

/-- Witness for C5 at a concrete input. -/
theorem send_empty_text_rejected_witness :
    sendMessageHandler ⟨true, 1, ⟨2024, 1, 1, 0, 0, 0, 0⟩⟩
        ⟨some "79001234567", some ""⟩ emptyCSV
      = { status := 400, attemptedTarget := none, log := emptyCSV } :=
  send_empty_text_rejected ⟨true, 1, ⟨2024, 1, 1, 0, 0, 0, 0⟩⟩
    ⟨some "79001234567", some ""⟩ emptyCSV (Or.inr rfl)

/-- **C10.** Whenever the send handler attempts an outbound send, the target
JID pairs the caller-supplied string with the fixed server domain
`s.whatsapp.net`; no request can address another server domain. -/
theorem send_target_fixed_server (env : SendEnv) (req : SendRequest)
    (st : CSVFile) (t : JID)
    (h : (sendMessageHandler env req st).attemptedTarget = some t) :
    t.server = "s.whatsapp.net"
    ∧ ∃ jid text, bindSendRequest req = some (jid, text)
        ∧ t = NewJID jid "s.whatsapp.net" := by
  unfold sendMessageHandler at h
  cases hb : bindSendRequest req with
  | none => rw [hb] at h; simp at h
  | some p =>
    rw [hb] at h
    unfold sendMessage at h
    rcases hs : env.sendOk with _ | _ <;> rw [hs] at h <;> simp at h <;>
      exact ⟨by rw [← h]; rfl, p.1, p.2, by simp [hb], by rw [← h]⟩

/-- Witness for C10 at a concrete input. -/
theorem send_target_fixed_server_witness :
    (NewJID "79001234567" "s.whatsapp.net").server = "s.whatsapp.net" := by
  have h := send_target_fixed_server ⟨true, 1, ⟨2024, 1, 1, 0, 0, 0, 0⟩⟩
    ⟨some "79001234567", some "hello"⟩ emptyCSV
    (NewJID "79001234567" "s.whatsapp.net") (by decide)
  exact h.1

/-! ## Theorems: QR code (C6) -/

/-- A fold of `saveQRCode` keeps only the last code written. -/
theorem foldl_saveQRCode_getLast (codes : List String) :
    ∀ (prev : Option String) (last : String), codes.getLast? = some last →
      codes.foldl (fun st c => saveQRCode c st) prev = some last := by
  induction codes with
  | nil => intro prev last hl; simp at hl
  | cons c cs ih =>
    intro prev last hl
    cases hcs : cs with
    | nil =>
      subst hcs
      simp only [List.getLast?_singleton, Option.some.injEq] at hl
      simp [saveQRCode, hl]
    | cons d ds =>
      subst hcs
      rw [List.foldl_cons]
      exact ih _ last (by rw [← List.getLast?_cons_cons]; exact hl)

/-- **C6.** Saving a login code fully replaces the code file (a fold of
saves retains only the last code), the text endpoint then returns that exact
string, and the photo endpoint, when it succeeds, produces the 256×256-pixel
square image requested of the renderer. -/
theorem qr_save_roundtrip (prev : Option String) (code : String) (env : QREnv)
    (codes : List String) (last : String) (h : codes.getLast? = some last) :
    saveQRCode code prev = some code
    ∧ generateQRTextHandler (saveQRCode code prev) = .ok code
    ∧ (∀ img, generateQRPhotoHandler env (saveQRCode code prev) = .ok img →
        img.width = 256 ∧ img.height = 256)
    ∧ codes.foldl (fun st c => saveQRCode c st) prev = some last := by
  refine ⟨rfl, rfl, ?_, foldl_saveQRCode_getLast codes prev last h⟩
  intro img himg
  rcases hq : env.qrNewOk with _ | _ <;>
    rcases hp : env.pngOk with _ | _ <;>
    simp only [generateQRPhotoHandler, saveQRCode, hq, hp] at himg <;>
    cases himg <;> exact ⟨rfl, rfl⟩

/-- Witness for C6 at a concrete input. -/
theorem qr_save_roundtrip_witness :
    generateQRTextHandler (saveQRCode "2@abc" none) = .ok "2@abc"
    ∧ ["1@x", "2@abc"].foldl (fun st c => saveQRCode c st) none = some "2@abc" := by
  have h := qr_save_roundtrip none "2@abc" ⟨true, true⟩ ["1@x", "2@abc"] "2@abc" (by decide)
  exact ⟨h.2.1, h.2.2.2⟩

/-! ## Theorems: media pipeline (C2, C7) and record fields (C8) -/

/-- The raw content change of one `writeToCSV`: the header iff the file was
empty, then exactly one record line. -/
theorem writeToCSV_content (now : Nat) (s ty tx ts : String) (st : CSVFile) :
    (writeToCSV now s ty tx ts st).content
      = st.content ++ (if st.content.isEmpty then encodeRow headerRow else [])
        ++ encodeRow [Nat.repr now, s, ty, tx, ts] := by
  unfold writeToCSV
  cases hc : st.content <;> simp [hc]

/-- If the download or either filesystem step fails, the media arm leaves
the log untouched. -/
theorem handleMedia_fail (env : HandlerEnv) (mediaType label : String)
    (mkSummary : String → String) (sender timestamp : String) (st : CSVFile)
    (h : env.download = .error () ∨ env.mkdirOk = false ∨ env.writeOk = false) :
    handleMedia env mediaType label mkSummary sender timestamp st = st := by
  unfold handleMedia
  rcases hdl : env.download with _ | d
  · rfl
  · rcases h with h | h | h
    · rw [h] at hdl; cases hdl
    · simp [saveMedia, h]
    · cases hmk : env.mkdirOk <;> simp [saveMedia, h, hmk]

/-- If the download and both filesystem steps succeed, the media arm appends
exactly the record built from the saved path. -/
theorem handleMedia_ok (env : HandlerEnv) (mediaType label : String)
    (mkSummary : String → String) (sender timestamp : String) (st : CSVFile)
    (d : List Nat) (hdl : env.download = .ok d) (hmk : env.mkdirOk = true)
    (hwr : env.writeOk = true) :
    saveMedia env.mkdirOk env.mediaNow env.writeOk mediaType d
      = .ok ("media/" ++ mediaType ++ "/" ++ Nat.repr env.mediaNow ++ extensionFor mediaType)
    ∧ handleMedia env mediaType label mkSummary sender timestamp st
      = writeToCSV env.csvNow sender label
          (mkSummary ("media/" ++ mediaType ++ "/" ++ Nat.repr env.mediaNow ++ extensionFor mediaType))
          timestamp st := by
  constructor
  · simp [saveMedia, hmk, hwr]
  · unfold handleMedia
    rw [hdl]
    simp [saveMedia, hmk, hwr]

/-- Structure forced on a message classified as a media kind: text and
extended-text predicates fail, and the first matching media sub-message is
present with all earlier ones absent. -/
theorem classify_media_shape (msg : WAMessage)
    (hk : classify msg ∈
      [ContentKind.Image, ContentKind.Video, ContentKind.Document, ContentKind.Audio]) :
    (msg.conversation != "") = false ∧ msg.extendedTextMessage = none ∧
    ((∃ im, msg.imageMessage = some im) ∨
     (msg.imageMessage = none ∧ ∃ vm, msg.videoMessage = some vm) ∨
     (msg.imageMessage = none ∧ msg.videoMessage = none ∧
        ∃ dm, msg.documentMessage = some dm) ∨
     (msg.imageMessage = none ∧ msg.videoMessage = none ∧
        msg.documentMessage = none ∧ ∃ am, msg.audioMessage = some am)) := by
  unfold classify at hk
  cases hc : (msg.conversation != "") <;> rw [hc] at hk
  · cases he : msg.extendedTextMessage <;> rw [he] at hk
    · cases hi : msg.imageMessage <;> rw [hi] at hk
      · cases hv : msg.videoMessage <;> rw [hv] at hk
        · cases hd : msg.documentMessage <;> rw [hd] at hk
          · cases ha : msg.audioMessage <;> rw [ha] at hk
            · cases hco : msg.contactMessage <;> rw [hco] at hk
              · cases hl : msg.locationMessage <;> rw [hl] at hk <;> simp at hk
              · simp at hk
            · refine ⟨rfl, rfl, ?_⟩; simp [hi, hv, hd, ha]
          · refine ⟨rfl, rfl, ?_⟩; simp [hi, hv, hd]
        · refine ⟨rfl, rfl, ?_⟩; simp [hi, hv]
      · refine ⟨rfl, rfl, ?_⟩; simp [hi]
    · simp at hk
  · simp at hk

/-- **C2.** For a message classified as a media kind, a failing download or
a failing media save skips the append entirely (the log is unchanged, no
retry), while a successful download and save append exactly one record: the
new content is the old content, the header iff the log was empty, and one
record line. -/
theorem media_append_iff_success (env : HandlerEnv) (m : EventsMessage)
    (st : CSVFile)
    (hk : classify m.message ∈
      [ContentKind.Image, ContentKind.Video, ContentKind.Document, ContentKind.Audio]) :
    ((env.download = .error () ∨ env.mkdirOk = false ∨ env.writeOk = false) →
      handleReceivedMessage env m st = st)
    ∧ (∀ d, env.download = .ok d → env.mkdirOk = true → env.writeOk = true →
      ∃ ty tx, handleReceivedMessage env m st
          = writeToCSV env.csvNow m.sender.toStr ty tx m.timestamp.formatRFC3339 st
        ∧ (handleReceivedMessage env m st).content
            = st.content ++ (if st.content.isEmpty then encodeRow headerRow else [])
              ++ encodeRow [Nat.repr env.csvNow, m.sender.toStr, ty, tx,
                   m.timestamp.formatRFC3339]) := by
  obtain ⟨hc, he, hcase⟩ := classify_media_shape m.message hk
  constructor
  · intro hfail
    unfold handleReceivedMessage
    rcases hcase with ⟨im, hi⟩ | ⟨hi, vm, hv⟩ | ⟨hi, hv, dm, hd⟩ | ⟨hi, hv, hd, am, ha⟩ <;>
      simp only [hc, he, hi, Bool.false_eq_true, if_false] <;>
      try simp only [hv] <;>
      try simp only [hd] <;>
      try simp only [ha]
    all_goals exact handleMedia_fail _ _ _ _ _ _ _ hfail
  · intro d hdl hmk hwr
    unfold handleReceivedMessage
    rcases hcase with ⟨im, hi⟩ | ⟨hi, vm, hv⟩ | ⟨hi, hv, dm, hd⟩ | ⟨hi, hv, hd, am, ha⟩ <;>
      simp only [hc, he, hi, Bool.false_eq_true, if_false] <;>
      try simp only [hv] <;>
      try simp only [hd] <;>
      try simp only [ha]
    all_goals
      refine ⟨_, _, (handleMedia_ok env _ _ _ _ _ st d hdl hmk hwr).2, ?_⟩
      rw [(handleMedia_ok env _ _ _ _ _ st d hdl hmk hwr).2, writeToCSV_content]

/-- Witness for C2 at a concrete input: an image message with a failing
download leaves the log unchanged, and with everything succeeding appends
one record. -/
theorem media_append_iff_success_witness :
    handleReceivedMessage ⟨.error (), true, 3, true, 5⟩
      ⟨⟨"u", 0, 0, "s.whatsapp.net"⟩, ⟨2024, 1, 1, 0, 0, 0, 0⟩,
        ⟨"", none, some ⟨"cap"⟩, none, none, none, none, none⟩⟩ emptyCSV = emptyCSV := by
  have h := media_append_iff_success ⟨.error (), true, 3, true, 5⟩
    ⟨⟨"u", 0, 0, "s.whatsapp.net"⟩, ⟨2024, 1, 1, 0, 0, 0, 0⟩,
      ⟨"", none, some ⟨"cap"⟩, none, none, none, none, none⟩⟩ emptyCSV (by decide)
  exact h.1 (Or.inl rfl)

/-- The per-kind media directory passed to `saveMedia`. -/
def mediaDir : ContentKind → String
  | .Image => "image"
  | .Video => "video"
  | .Document => "document"
  | .Audio => "audio"
  | _ => ""

/-- The `type` column written for each kind. -/
def kindLabel : ContentKind → String
  | .Text => "Conversation"
  | .ExtendedText => "ExtendedText"
  | .Image => "Image"
  | .Video => "Video"
  | .Document => "Document"
  | .Audio => "Audio"
  | .Contact => "Contact"
  | .Location => "Location"
  | .Unknown => "Unknown"

/-- The payload summary the handler builds for a media record from the
message's caption/filename and the saved path (audio carries the bare
path). -/
def mediaSummary (k : ContentKind) (msg : WAMessage) (path : String) : String :=
  match k with
  | .Image => "Caption: " ++ (msg.imageMessage.map ImageMessage.caption).getD "" ++ ", Path: " ++ path
  | .Video => "Caption: " ++ (msg.videoMessage.map VideoMessage.caption).getD "" ++ ", Path: " ++ path
  | .Document => "FileName: " ++ (msg.documentMessage.map DocumentMessage.fileName).getD "" ++ ", Path: " ++ path
  | .Audio => path
  | _ => ""

/-- **C7.** For a media-kind message whose download and save both succeed,
the appended record's payload summary is built from the message's caption
(image, video) or filename (document) together with the exact file path the
media store returned (audio records carry the bare path). -/
theorem media_record_summary (env : HandlerEnv) (m : EventsMessage)
    (st : CSVFile) (d : List Nat)
    (hk : classify m.message ∈
      [ContentKind.Image, ContentKind.Video, ContentKind.Document, ContentKind.Audio])
    (hdl : env.download = .ok d) (hmk : env.mkdirOk = true) (hwr : env.writeOk = true) :
    ∃ path, saveMedia env.mkdirOk env.mediaNow env.writeOk
        (mediaDir (classify m.message)) d = .ok path
      ∧ handleReceivedMessage env m st
          = writeToCSV env.csvNow m.sender.toStr (kindLabel (classify m.message))
              (mediaSummary (classify m.message) m.message path)
              m.timestamp.formatRFC3339 st := by
  obtain ⟨hc, he, hcase⟩ := classify_media_shape m.message hk
  rcases hcase with ⟨im, hi⟩ | ⟨hi, vm, hv⟩ | ⟨hi, hv, dm, hd⟩ | ⟨hi, hv, hd, am, ha⟩
  · have hk2 : classify m.message = .Image := by
      unfold classify
      simp [hc, he, hi]
    rw [hk2]
    refine ⟨"media/" ++ "image" ++ "/" ++ Nat.repr env.mediaNow ++ extensionFor "image",
      ?_, ?_⟩
    · simpa [mediaDir] using (handleMedia_ok env "image" "Image" id "" "" st d hdl hmk hwr).1
    · unfold handleReceivedMessage
      simp only [hc, he, hi, Bool.false_eq_true, if_false]
      rw [(handleMedia_ok env _ _ _ _ _ st d hdl hmk hwr).2]
      simp [mediaSummary, kindLabel, hi]
  · have hk2 : classify m.message = .Video := by
      unfold classify
      simp [hc, he, hi, hv]
    rw [hk2]
    refine ⟨"media/" ++ "video" ++ "/" ++ Nat.repr env.mediaNow ++ extensionFor "video",
      ?_, ?_⟩
    · simpa [mediaDir] using (handleMedia_ok env "video" "Video" id "" "" st d hdl hmk hwr).1
    · unfold handleReceivedMessage
      simp only [hc, he, hi, hv, Bool.false_eq_true, if_false]
      rw [(handleMedia_ok env _ _ _ _ _ st d hdl hmk hwr).2]
      simp [mediaSummary, kindLabel, hv]
  · have hk2 : classify m.message = .Document := by
      unfold classify
      simp [hc, he, hi, hv, hd]
    rw [hk2]
    refine ⟨"media/" ++ "document" ++ "/" ++ Nat.repr env.mediaNow ++ extensionFor "document",
      ?_, ?_⟩
    · simpa [mediaDir] using
        (handleMedia_ok env "document" "Document" id "" "" st d hdl hmk hwr).1
    · unfold handleReceivedMessage
      simp only [hc, he, hi, hv, hd, Bool.false_eq_true, if_false]
      rw [(handleMedia_ok env _ _ _ _ _ st d hdl hmk hwr).2]
      simp [mediaSummary, kindLabel, hd]
  · have hk2 : classify m.message = .Audio := by
      unfold classify
      simp [hc, he, hi, hv, hd, ha]
    rw [hk2]
    refine ⟨"media/" ++ "audio" ++ "/" ++ Nat.repr env.mediaNow ++ extensionFor "audio",
      ?_, ?_⟩
    · simpa [mediaDir] using (handleMedia_ok env "audio" "Audio" id "" "" st d hdl hmk hwr).1
    · unfold handleReceivedMessage
      simp only [hc, he, hi, hv, hd, ha, Bool.false_eq_true, if_false]
      rw [(handleMedia_ok env _ _ _ _ _ st d hdl hmk hwr).2]
      simp [mediaSummary, kindLabel]

/-- Witness for C7 at a concrete input: a successful image pipeline writes
the caption-plus-path summary. -/
theorem media_record_summary_witness :
    ∃ path, saveMedia true 3 true "image" [9] = .ok path
      ∧ handleReceivedMessage ⟨.ok [9], true, 3, true, 5⟩
          ⟨⟨"u", 0, 0, "s.whatsapp.net"⟩, ⟨2024, 1, 1, 0, 0, 0, 0⟩,
            ⟨"", none, some ⟨"cap"⟩, none, none, none, none, none⟩⟩ emptyCSV
        = writeToCSV 5 (JID.toStr ⟨"u", 0, 0, "s.whatsapp.net"⟩) "Image"
            ("Caption: " ++ "cap" ++ ", Path: " ++ path)
            (GoTime.formatRFC3339 ⟨2024, 1, 1, 0, 0, 0, 0⟩) emptyCSV := by
  have h := media_record_summary ⟨.ok [9], true, 3, true, 5⟩
    ⟨⟨"u", 0, 0, "s.whatsapp.net"⟩, ⟨2024, 1, 1, 0, 0, 0, 0⟩,
      ⟨"", none, some ⟨"cap"⟩, none, none, none, none, none⟩⟩ emptyCSV [9]
    (by decide) rfl rfl rfl
  obtain ⟨path, hsave, hrun⟩ := h
  exact ⟨path, hsave, hrun⟩

/-- String concatenation is empty iff both halves are. -/
theorem string_append_eq_empty (a b : String) : a ++ b = "" ↔ a = "" ∧ b = "" := by
  constructor
  · intro h
    have h2 : a.data ++ b.data = [] := by
      rw [← String.data_append]
      exact congrArg String.data h
    have h3 := List.append_eq_nil.mp h2
    exact ⟨String.ext h3.1, String.ext h3.2⟩
  · rintro ⟨rfl, rfl⟩
    rfl

/-- `Format(time.RFC3339)` always produces a non-empty string (the layout
contains literal separators). -/
theorem formatRFC3339_ne_empty (t : GoTime) : t.formatRFC3339 ≠ "" := by
  unfold GoTime.formatRFC3339
  intro h
  have h2 := (string_append_eq_empty _ _).mp h
  have h3 := (string_append_eq_empty _ _).mp h2.1
  have h4 := (string_append_eq_empty _ _).mp h3.1
  exact absurd h4.2 (by decide)

/-- The whatsmeow `JID.String()` is empty exactly for the all-zero JID
(empty user and server, zero device and agent). -/
theorem JID_toStr_empty_iff (j : JID) :
    j.toStr = "" ↔
      (j.user = "" ∧ j.rawAgent = 0 ∧ j.device = 0 ∧ j.server = "") := by
  unfold JID.toStr
  by_cases ha : j.rawAgent > 0
  · simp only [ha, if_true]
    constructor
    · intro h
      have h2 := (string_append_eq_empty _ _).mp h
      have h3 := (string_append_eq_empty _ _).mp h2.1
      exact absurd h3.2 (by decide)
    · rintro ⟨-, h0, -, -⟩
      omega
  · simp only [ha, if_false]
    have ha0 : j.rawAgent = 0 := by omega
    by_cases hd : j.device > 0
    · simp only [hd, if_true]
      constructor
      · intro h
        have h2 := (string_append_eq_empty _ _).mp h
        have h3 := (string_append_eq_empty _ _).mp h2.1
        exact absurd h3.2 (by decide)
      · rintro ⟨-, -, h0, -⟩
        omega
    · simp only [hd, if_false]
      have hd0 : j.device = 0 := by omega
      by_cases hu : j.user.length > 0
      · simp only [hu, if_true]
        constructor
        · intro h
          have h2 := (string_append_eq_empty _ _).mp h
          have h3 := (string_append_eq_empty _ _).mp h2.1
          have hue : j.user = "" := h3.1
          rw [hue] at hu
          exact absurd hu (by decide)
        · rintro ⟨h0, -, -, -⟩
          rw [h0] at hu
          exact absurd hu (by decide)
      · simp only [hu, if_false]
        have hue : j.user = "" := by
          have hlen : j.user.length = 0 := by omega
          have hdata : j.user.data = [] := by
            rwa [String.length, List.length_eq_zero] at hlen
          exact String.ext hdata
        simp [hue, ha0, hd0]

/-- Every record the inbound handler writes goes through one `writeToCSV`
with the sender's rendered JID and the RFC3339 timestamp; otherwise the log
is untouched. -/
theorem handleReceivedMessage_shape (env : HandlerEnv) (m : EventsMessage)
    (st : CSVFile) :
    handleReceivedMessage env m st = st
    ∨ ∃ ty tx, handleReceivedMessage env m st
        = writeToCSV env.csvNow m.sender.toStr ty tx m.timestamp.formatRFC3339 st := by
  simp only [handleReceivedMessage]
  cases hc : (m.message.conversation != "") <;>
    simp only [hc, Bool.false_eq_true, if_false, if_true]
  · cases he : m.message.extendedTextMessage
    · cases hi : m.message.imageMessage
      · cases hv : m.message.videoMessage
        · cases hd : m.message.documentMessage
          · cases ha : m.message.audioMessage
            · cases hco : m.message.contactMessage
              · cases hl : m.message.locationMessage
                · exact Or.inr ⟨_, _, rfl⟩
                · exact Or.inr ⟨_, _, rfl⟩
              · exact Or.inr ⟨_, _, rfl⟩
            · rcases hdl : env.download with _ | d
              · exact Or.inl (handleMedia_fail _ _ _ _ _ _ _ (Or.inl hdl))
              · rcases hmk : env.mkdirOk with _ | _
                · exact Or.inl (handleMedia_fail _ _ _ _ _ _ _ (Or.inr (Or.inl hmk)))
                · rcases hwr : env.writeOk with _ | _
                  · exact Or.inl (handleMedia_fail _ _ _ _ _ _ _ (Or.inr (Or.inr hwr)))
                  · exact Or.inr ⟨_, _, (handleMedia_ok env _ _ _ _ _ st d hdl hmk hwr).2⟩
          · rcases hdl : env.download with _ | d
            · exact Or.inl (handleMedia_fail _ _ _ _ _ _ _ (Or.inl hdl))
            · rcases hmk : env.mkdirOk with _ | _
              · exact Or.inl (handleMedia_fail _ _ _ _ _ _ _ (Or.inr (Or.inl hmk)))
              · rcases hwr : env.writeOk with _ | _
                · exact Or.inl (handleMedia_fail _ _ _ _ _ _ _ (Or.inr (Or.inr hwr)))
                · exact Or.inr ⟨_, _, (handleMedia_ok env _ _ _ _ _ st d hdl hmk hwr).2⟩
        · rcases hdl : env.download with _ | d
          · exact Or.inl (handleMedia_fail _ _ _ _ _ _ _ (Or.inl hdl))
          · rcases hmk : env.mkdirOk with _ | _
            · exact Or.inl (handleMedia_fail _ _ _ _ _ _ _ (Or.inr (Or.inl hmk)))
            · rcases hwr : env.writeOk with _ | _
              · exact Or.inl (handleMedia_fail _ _ _ _ _ _ _ (Or.inr (Or.inr hwr)))
              · exact Or.inr ⟨_, _, (handleMedia_ok env _ _ _ _ _ st d hdl hmk hwr).2⟩
      · rcases hdl : env.download with _ | d
        · exact Or.inl (handleMedia_fail _ _ _ _ _ _ _ (Or.inl hdl))
        · rcases hmk : env.mkdirOk with _ | _
          · exact Or.inl (handleMedia_fail _ _ _ _ _ _ _ (Or.inr (Or.inl hmk)))
          · rcases hwr : env.writeOk with _ | _
            · exact Or.inl (handleMedia_fail _ _ _ _ _ _ _ (Or.inr (Or.inr hwr)))
            · exact Or.inr ⟨_, _, (handleMedia_ok env _ _ _ _ _ st d hdl hmk hwr).2⟩
    · exact Or.inr ⟨_, _, rfl⟩
  · exact Or.inr ⟨_, _, rfl⟩

/-- **C8 (amended).** Every record the inbound handler appends carries the
RFC3339-rendered timestamp, which is never empty; its sender field is the
rendered sender JID, which is empty exactly when the sender JID is the
all-zero JID (empty user and server, zero device and agent) — so the claim's
"non-empty sender" holds for every message except those with an all-zero
sender JID. -/
theorem inbound_record_fields (env : HandlerEnv) (m : EventsMessage)
    (st : CSVFile) :
    handleReceivedMessage env m st = st
    ∨ ∃ ty tx, handleReceivedMessage env m st
        = writeToCSV env.csvNow m.sender.toStr ty tx m.timestamp.formatRFC3339 st
      ∧ m.timestamp.formatRFC3339 ≠ ""
      ∧ (m.sender.toStr = "" ↔
          (m.sender.user = "" ∧ m.sender.rawAgent = 0 ∧ m.sender.device = 0
            ∧ m.sender.server = "")) := by
  rcases handleReceivedMessage_shape env m st with h | ⟨ty, tx, h⟩
  · exact Or.inl h
  · exact Or.inr ⟨ty, tx, h, formatRFC3339_ne_empty m.timestamp,
      JID_toStr_empty_iff m.sender⟩

/-- **C8 counterexample.** The handler performs no check on the sender: a
conversation message whose sender is the all-zero JID is appended with an
empty `phone` field, so the claim's "non-empty sender field" fails at this
input (the timestamp field is still non-empty). -/
theorem inbound_record_empty_sender_cex :
    JID.toStr ⟨"", 0, 0, ""⟩ = ""
    ∧ readAllCSV (handleReceivedMessage ⟨.error (), true, 0, true, 5⟩
        ⟨⟨"", 0, 0, ""⟩, ⟨1, 1, 1, 0, 0, 0, 0⟩,
          ⟨"hi", none, none, none, none, none, none, none⟩⟩ emptyCSV).content
      = .ok [["id", "phone", "type", "text", "datetime"],
             ["5", "", "Conversation", "hi", "0001-01-01T00:00:00Z"]] := by
  decide

/-! ## CSV round trip: what the reader gives back (C3, C4) -/

/-- What the Go reader returns for one field the writer wrote: a quoted
field comes back with every CRLF pair collapsed to LF, an unquoted field
verbatim. -/
def readBackField (f : String) : String :=
  if fieldNeedsQuotes f then String.mk (normalizeCRLF f.data) else f

def readBackRow (r : List String) : List String := r.map readBackField

/-- The CRLF-normalized encoding of one field. -/
def encodeFieldN (f : String) : List Char :=
  if fieldNeedsQuotes f then '"' :: (encodeQuotedBody (normalizeCRLF f.data) ++ ['"'])
  else f.data

/-- Normalized encoding of the fields after the first one. -/
def rowTailN : List String → List Char
  | [] => ['\n']
  | g :: gs => ',' :: (encodeFieldN g ++ rowTailN gs)

/-- Normalized encoding of one record line. -/
def rowPieceN : List String → List Char
  | [] => ['\n']
  | g :: gs => encodeFieldN g ++ rowTailN gs

/-- Raw encoding of a list of record lines. -/
def encodeRows : List (List String) → List Char
  | [] => []
  | r :: rs => encodeRow r ++ encodeRows rs

/-- Normalized encoding of a list of record lines. -/
def encodeRowsN : List (List String) → List Char
  | [] => []
  | r :: rs => rowPieceN r ++ encodeRowsN rs

/-! ### normalizeCRLF: basic equations and distribution over the encoding -/

theorem normalizeCRLF_pair (t : List Char) :
    normalizeCRLF ('\r' :: '\n' :: t) = '\n' :: normalizeCRLF t := by
  simp [normalizeCRLF]

theorem normalizeCRLF_cons_of_ne (c d : Char) (t : List Char)
    (h : ¬(c = '\r' ∧ d = '\n')) :
    normalizeCRLF (c :: d :: t) = c :: normalizeCRLF (d :: t) := by
  conv_lhs => rw [normalizeCRLF]
  rw [if_neg h]

theorem normalizeCRLF_cons_not_cr (c : Char) (hc : c ≠ '\r') (t : List Char) :
    normalizeCRLF (c :: t) = c :: normalizeCRLF t := by
  cases t with
  | nil => rfl
  | cons d t2 => exact normalizeCRLF_cons_of_ne c d t2 (fun h => hc h.1)

theorem normalizeCRLF_cons_cr_not_lf (t : List Char) (ht : t.head? ≠ some '\n') :
    normalizeCRLF ('\r' :: t) = '\r' :: normalizeCRLF t := by
  cases t with
  | nil => rfl
  | cons d t2 =>
    refine normalizeCRLF_cons_of_ne _ _ _ (fun h => ht ?_)
    rw [h.2]
    rfl

theorem normalizeCRLF_of_no_cr (s : List Char) (h : ∀ c ∈ s, c ≠ '\r') :
    normalizeCRLF s = s := by
  induction s with
  | nil => rfl
  | cons c t ih =>
    rw [normalizeCRLF_cons_not_cr c (h c (List.mem_cons_self c t)) t,
      ih (fun d hd => h d (List.mem_cons_of_mem c hd))]

theorem normalizeCRLF_of_not_containsCRLF (s : List Char)
    (h : containsCRLF s = false) : normalizeCRLF s = s := by
  induction s using list_strong_ind with
  | _ s ih =>
    match s with
    | [] => rfl
    | [c] => rfl
    | c :: d :: t =>
      unfold containsCRLF at h
      by_cases hcd : c = '\r' ∧ d = '\n'
      · rw [if_pos hcd] at h
        cases h
      · rw [if_neg hcd] at h
        rw [normalizeCRLF_cons_of_ne c d t hcd, ih (d :: t) (by simp only [List.length_cons]; omega) h]

theorem normalizeCRLF_append (xs : List Char) : ∀ ys : List Char,
    (xs.getLast? ≠ some '\r' ∨ ys.head? ≠ some '\n') →
    normalizeCRLF (xs ++ ys) = normalizeCRLF xs ++ normalizeCRLF ys := by
  induction xs using list_strong_ind with
  | _ xs ih =>
    intro ys hy
    match xs with
    | [] => simp [normalizeCRLF]
    | [c] =>
      cases ys with
      | nil => simp [normalizeCRLF]
      | cons d ys2 =>
        have hcd : ¬(c = '\r' ∧ d = '\n') := by
          rintro ⟨rfl, rfl⟩
          rcases hy with hy | hy
          · exact hy rfl
          · exact hy rfl
        rw [List.singleton_append, normalizeCRLF_cons_of_ne c d ys2 hcd]
        rfl
    | c :: d :: t =>
      by_cases hcd : c = '\r' ∧ d = '\n'
      · obtain ⟨rfl, rfl⟩ := hcd
        rw [List.cons_append, List.cons_append, normalizeCRLF_pair,
          normalizeCRLF_pair]
        cases t with
        | nil => simp [normalizeCRLF]
        | cons y t2 =>
          have ht : (y :: t2).getLast? ≠ some '\r' ∨ ys.head? ≠ some '\n' := by
            rcases hy with hy | hy
            · left
              rwa [List.getLast?_cons_cons, List.getLast?_cons_cons] at hy
            · exact Or.inr hy
          rw [ih (y :: t2) (by simp only [List.length_cons]; omega) ys ht]
          simp
      · rw [List.cons_append, List.cons_append,
          normalizeCRLF_cons_of_ne c d (t ++ ys) hcd,
          normalizeCRLF_cons_of_ne c d t hcd]
        have hdt : (d :: t).getLast? ≠ some '\r' ∨ ys.head? ≠ some '\n' := by
          rcases hy with hy | hy
          · left
            rwa [List.getLast?_cons_cons] at hy
          · exact Or.inr hy
        rw [← List.cons_append, ih (d :: t) (by simp only [List.length_cons]; omega) ys hdt]
        simp

theorem encodeQuotedBody_head? (t : List Char) :
    (encodeQuotedBody t).head? = t.head? := by
  cases t with
  | nil => rfl
  | cons c t2 =>
    by_cases hc : c = '"' <;> simp [encodeQuotedBody, hc]

/-- CRLF normalization commutes with the writer's quote doubling. -/
theorem normalizeCRLF_encodeQuotedBody (s : List Char) :
    normalizeCRLF (encodeQuotedBody s) = encodeQuotedBody (normalizeCRLF s) := by
  induction s using list_strong_ind with
  | _ s ih =>
    cases s with
    | nil => rfl
    | cons c t =>
      by_cases hq : c = '"'
      · subst hq
        have hq2 : ('"' : Char) ≠ '\r' := by decide
        have hE : encodeQuotedBody ('"' :: t) = '"' :: '"' :: encodeQuotedBody t := by
          simp [encodeQuotedBody]
        rw [hE, normalizeCRLF_cons_not_cr _ hq2, normalizeCRLF_cons_not_cr _ hq2,
          ih t (by simp only [List.length_cons]; omega), normalizeCRLF_cons_not_cr _ hq2]
        simp [encodeQuotedBody]
      · have hE : encodeQuotedBody (c :: t) = c :: encodeQuotedBody t := by
          simp [encodeQuotedBody, hq]
        by_cases hr : c = '\r'
        · subst hr
          cases t with
          | nil => rfl
          | cons c2 t2 =>
            by_cases hc2 : c2 = '\n'
            · subst hc2
              have hE2 : encodeQuotedBody ('\n' :: t2) = '\n' :: encodeQuotedBody t2 := by
                simp [encodeQuotedBody]
              rw [hE, hE2, normalizeCRLF_pair, normalizeCRLF_pair, ih t2 (by simp only [List.length_cons]; omega)]
              simp [encodeQuotedBody]
            · have hhead : (encodeQuotedBody (c2 :: t2)).head? ≠ some '\n' := by
                rw [encodeQuotedBody_head?]
                simp [hc2]
              rw [hE, normalizeCRLF_cons_cr_not_lf _ hhead, ih (c2 :: t2) (by simp only [List.length_cons]; omega),
                normalizeCRLF_cons_of_ne '\r' c2 t2 (by simp [hc2])]
              simp [encodeQuotedBody]
        · rw [hE, normalizeCRLF_cons_not_cr c hr, ih t (by simp only [List.length_cons]; omega),
            normalizeCRLF_cons_not_cr c hr]
          simp [encodeQuotedBody, hq]

theorem mem_of_getLast?_eq {α : Type} {l : List α} {a : α}
    (h : l.getLast? = some a) : a ∈ l := by
  have hx : a ∈ l.getLast? := Option.mem_def.mpr h
  obtain ⟨hne, heq⟩ := List.mem_getLast?_eq_getLast hx
  rw [heq]
  exact List.getLast_mem hne

/-- A field the writer leaves unquoted contains none of the four special
characters. -/
theorem not_fieldNeedsQuotes_chars (f : String) (h : fieldNeedsQuotes f = false) :
    ∀ c ∈ f.data, c ≠ ',' ∧ c ≠ '"' ∧ c ≠ '\r' ∧ c ≠ '\n' := by
  intro c hc
  unfold fieldNeedsQuotes at h
  by_cases h0 : f = ""
  · rw [h0] at hc
    simp at hc
  · rw [if_neg h0] at h
    by_cases h1 : f = "\\."
    · rw [if_pos h1] at h
      cases h
    · rw [if_neg h1] at h
      by_cases h2 : f.data.any (fun c => c = ',' || c = '"' || c = '\r' || c = '\n')
      · rw [if_pos h2] at h
        cases h
      · have h2f : f.data.any (fun c => c = ',' || c = '"' || c = '\r' || c = '\n')
            = false := by
          simpa using h2
        have h3 := List.any_eq_false.mp h2f c hc
        simp only [Bool.or_eq_true, decide_eq_true_eq, not_or] at h3
        exact ⟨h3.1.1.1, h3.1.1.2, h3.1.2, h3.2⟩

theorem encodeField_getLast_ne_cr (g : String) :
    (encodeField g).getLast? ≠ some '\r' := by
  unfold encodeField
  by_cases hq : fieldNeedsQuotes g
  · rw [if_pos hq]
    have hsplit : ('"' : Char) :: (encodeQuotedBody g.data ++ ['"'])
        = (('"' :: encodeQuotedBody g.data) ++ ['"']) := by
      simp
    rw [hsplit, List.getLast?_concat]
    simp
  · rw [if_neg hq]
    intro h
    have hc := mem_of_getLast?_eq h
    exact (not_fieldNeedsQuotes_chars g (by simpa using hq) '\r' hc).2.2.1 rfl

/-- Normalization splits off one encoded field. -/
theorem normalizeCRLF_encodeField (g : String) (z : List Char) :
    normalizeCRLF (encodeField g ++ z) = encodeFieldN g ++ normalizeCRLF z := by
  by_cases hq : fieldNeedsQuotes g
  · have hsh : encodeField g ++ z = '"' :: (encodeQuotedBody g.data ++ ('"' :: z)) := by
      simp [encodeField, hq]
    rw [hsh, normalizeCRLF_cons_not_cr _ (by decide),
      normalizeCRLF_append (encodeQuotedBody g.data) ('"' :: z) (Or.inr (by simp)),
      normalizeCRLF_cons_not_cr _ (by decide), normalizeCRLF_encodeQuotedBody]
    simp [encodeFieldN, hq]
  · have hfree := not_fieldNeedsQuotes_chars g (by simpa using hq)
    have hlast : g.data.getLast? ≠ some '\r' := by
      intro h
      exact (hfree '\r' (mem_of_getLast?_eq h)).2.2.1 rfl
    have henc : encodeField g = g.data := by simp [encodeField, hq]
    rw [henc, normalizeCRLF_append g.data z (Or.inl hlast),
      normalizeCRLF_of_no_cr g.data (fun c hc => (hfree c hc).2.2.1)]
    simp [encodeFieldN, hq]

theorem normalizeCRLF_encodeRowTail (gs : List String) : ∀ z : List Char,
    normalizeCRLF (encodeRowTail gs ++ z) = rowTailN gs ++ normalizeCRLF z := by
  induction gs with
  | nil =>
    intro z
    rw [show encodeRowTail [] ++ z = '\n' :: z from rfl,
      normalizeCRLF_cons_not_cr _ (by decide)]
    rfl
  | cons g gs2 ih =>
    intro z
    have hsh : encodeRowTail (g :: gs2) ++ z
        = ',' :: (encodeField g ++ (encodeRowTail gs2 ++ z)) := by
      simp [encodeRowTail]
    rw [hsh, normalizeCRLF_cons_not_cr _ (by decide),
      normalizeCRLF_encodeField, ih z]
    simp [rowTailN]

theorem normalizeCRLF_encodeRow (r : List String) (z : List Char) :
    normalizeCRLF (encodeRow r ++ z) = rowPieceN r ++ normalizeCRLF z := by
  cases r with
  | nil =>
    rw [show encodeRow [] ++ z = '\n' :: z from rfl,
      normalizeCRLF_cons_not_cr _ (by decide)]
    rfl
  | cons g gs =>
    have hsh : encodeRow (g :: gs) ++ z = encodeField g ++ (encodeRowTail gs ++ z) := by
      simp [encodeRow]
    rw [hsh, normalizeCRLF_encodeField, normalizeCRLF_encodeRowTail]
    simp [rowPieceN]

theorem normalizeCRLF_encodeRows (rs : List (List String)) :
    normalizeCRLF (encodeRows rs) = encodeRowsN rs := by
  induction rs with
  | nil => rfl
  | cons r rs2 ih =>
    rw [show encodeRows (r :: rs2) = encodeRow r ++ encodeRows rs2 from rfl,
      normalizeCRLF_encodeRow, ih]
    rfl

/-! ### The scanner on encoded content -/

theorem csvScan_recStart_other (c : Char) (h1 : c ≠ '\n') (h2 : c ≠ '"')
    (h3 : c ≠ ',') (t : List Char) (f : List Char) (row : List String)
    (rows : List (List String)) :
    csvScan (c :: t) .recStart f row rows
      = csvScan t .inField (f ++ [c]) row rows := by
  simp [csvScan, h1, h2, h3]

theorem csvScan_fieldStart_quote (t : List Char) (f : List Char)
    (row : List String) (rows : List (List String)) :
    csvScan ('"' :: t) .fieldStart f row rows
      = csvScan t .inQuotes f row rows := by
  simp [csvScan]

theorem csvScan_fieldStart_other (c : Char) (h1 : c ≠ '\n') (h2 : c ≠ '"')
    (h3 : c ≠ ',') (t : List Char) (f : List Char) (row : List String)
    (rows : List (List String)) :
    csvScan (c :: t) .fieldStart f row rows
      = csvScan t .inField (f ++ [c]) row rows := by
  simp [csvScan, h1, h2, h3]

theorem csvScan_inField_other (c : Char) (h1 : c ≠ '\n') (h2 : c ≠ '"')
    (h3 : c ≠ ',') (t : List Char) (f : List Char) (row : List String)
    (rows : List (List String)) :
    csvScan (c :: t) .inField f row rows
      = csvScan t .inField (f ++ [c]) row rows := by
  simp [csvScan, h1, h2, h3]

theorem csvScan_inQuotes_quote (t : List Char) (f : List Char)
    (row : List String) (rows : List (List String)) :
    csvScan ('"' :: t) .inQuotes f row rows
      = csvScan t .quoteEnd f row rows := by
  simp [csvScan]

theorem csvScan_inQuotes_other (c : Char) (hc : c ≠ '"') (t : List Char)
    (f : List Char) (row : List String) (rows : List (List String)) :
    csvScan (c :: t) .inQuotes f row rows
      = csvScan t .inQuotes (f ++ [c]) row rows := by
  simp [csvScan, hc]

theorem csvScan_quoteEnd_quote (t : List Char) (f : List Char)
    (row : List String) (rows : List (List String)) :
    csvScan ('"' :: t) .quoteEnd f row rows
      = csvScan t .inQuotes (f ++ ['"']) row rows := by
  simp [csvScan]

/-- The three configurations a finished field can be in (just after a comma
with nothing read, inside an unquoted field, just after a closing quote)
treat the comma, the newline and EOF alike: push the pending field. -/
theorem csvScan_pend_comma (m : CSVMode)
    (hm : m = .fieldStart ∨ m = .inField ∨ m = .quoteEnd) (t : List Char)
    (f : List Char) (row : List String) (rows : List (List String)) :
    csvScan (',' :: t) m f row rows
      = csvScan t .fieldStart [] (row ++ [String.mk f]) rows := by
  rcases hm with rfl | rfl | rfl <;> simp [csvScan]

theorem csvScan_pend_newline (m : CSVMode)
    (hm : m = .fieldStart ∨ m = .inField ∨ m = .quoteEnd) (t : List Char)
    (f : List Char) (row : List String) (rows : List (List String)) :
    csvScan ('\n' :: t) m f row rows
      = csvScan t .recStart [] [] (rows ++ [row ++ [String.mk f]]) := by
  rcases hm with rfl | rfl | rfl <;> simp [csvScan]

theorem csvScan_pend_nil (m : CSVMode)
    (hm : m = .fieldStart ∨ m = .inField ∨ m = .quoteEnd)
    (f : List Char) (row : List String) (rows : List (List String)) :
    csvScan [] m f row rows = .ok (rows ++ [row ++ [String.mk f]]) := by
  rcases hm with rfl | rfl | rfl <;> simp [csvScan]

/-- Scanning the quote-doubled body of a quoted field accumulates it
verbatim and stops at the closing quote. -/
theorem csvScan_encodeQuotedBody (u : List Char) : ∀ (rest f : List Char)
    (row : List String) (rows : List (List String)),
    csvScan (encodeQuotedBody u ++ '"' :: rest) .inQuotes f row rows
      = csvScan rest .quoteEnd (f ++ u) row rows := by
  induction u with
  | nil =>
    intro rest f row rows
    rw [show encodeQuotedBody [] ++ '"' :: rest = '"' :: rest from rfl,
      csvScan_inQuotes_quote]
    simp
  | cons c t ih =>
    intro rest f row rows
    by_cases hc : c = '"'
    · subst hc
      rw [show encodeQuotedBody ('"' :: t) ++ '"' :: rest
            = '"' :: ('"' :: (encodeQuotedBody t ++ '"' :: rest)) by
          simp [encodeQuotedBody],
        csvScan_inQuotes_quote, csvScan_quoteEnd_quote, ih]
      simp
    · rw [show encodeQuotedBody (c :: t) ++ '"' :: rest
            = c :: (encodeQuotedBody t ++ '"' :: rest) by
          simp [encodeQuotedBody, hc],
        csvScan_inQuotes_other c hc, ih]
      simp

/-- Scanning unquoted-field content accumulates it verbatim. -/
theorem csvScan_unquoted_content (u : List Char)
    (hu : ∀ c ∈ u, c ≠ ',' ∧ c ≠ '"' ∧ c ≠ '\n') : ∀ (rest f : List Char)
    (row : List String) (rows : List (List String)),
    csvScan (u ++ rest) .inField f row rows
      = csvScan rest .inField (f ++ u) row rows := by
  induction u with
  | nil => intro rest f row rows; simp
  | cons c t ih =>
    intro rest f row rows
    obtain ⟨h1, h2, h3⟩ := hu c (by simp)
    rw [List.cons_append, csvScan_inField_other c h3 h2 h1,
      ih (fun d hd => hu d (by simp [hd])) rest]
    simp

/-- Scanning one normalized encoded field from the just-after-comma
configuration ends in a finished-field configuration holding the read-back
field. -/
theorem csvScan_fieldN (g : String) :
    ∃ (m : CSVMode) (fo : List Char),
      (m = .fieldStart ∨ m = .inField ∨ m = .quoteEnd)
      ∧ String.mk fo = readBackField g
      ∧ ∀ (rest : List Char) (row : List String) (rows : List (List String)),
          csvScan (encodeFieldN g ++ rest) .fieldStart [] row rows
            = csvScan rest m fo row rows := by
  by_cases hq : fieldNeedsQuotes g
  · refine ⟨.quoteEnd, normalizeCRLF g.data, Or.inr (Or.inr rfl),
      by simp [readBackField, hq], ?_⟩
    intro rest row rows
    rw [show encodeFieldN g ++ rest
          = '"' :: (encodeQuotedBody (normalizeCRLF g.data) ++ '"' :: rest) by
        simp [encodeFieldN, hq],
      csvScan_fieldStart_quote, csvScan_encodeQuotedBody]
    simp
  · have hfree := not_fieldNeedsQuotes_chars g (by simpa using hq)
    cases hgd : g.data with
    | nil =>
      refine ⟨.fieldStart, [], Or.inl rfl, ?_, ?_⟩
      · have hg : g = "" := String.ext hgd
        subst hg
        decide
      · intro rest row rows
        rw [show encodeFieldN g ++ rest = rest by simp [encodeFieldN, hq, hgd]]
    | cons c u =>
      refine ⟨.inField, g.data, Or.inr (Or.inl rfl), ?_, ?_⟩
      · simp [readBackField, hq]
      · intro rest row rows
        have hcfree := hfree c (by rw [hgd]; simp)
        have hufree : ∀ d ∈ u, d ≠ ',' ∧ d ≠ '"' ∧ d ≠ '\n' := by
          intro d hd
          have := hfree d (by rw [hgd]; simp [hd])
          exact ⟨this.1, this.2.1, this.2.2.2⟩
        rw [show encodeFieldN g ++ rest = c :: (u ++ rest) by
            simp [encodeFieldN, hq, hgd],
          csvScan_fieldStart_other c hcfree.2.2.2 hcfree.2.1 hcfree.1,
          csvScan_unquoted_content u hufree rest]
        simp [hgd]

/-- Scanning the remaining fields of one record from a finished-field
configuration pushes the whole record and returns to record start. -/
theorem csvScan_rowTailN (gs : List String) : ∀ (m : CSVMode),
    (m = .fieldStart ∨ m = .inField ∨ m = .quoteEnd) →
    ∀ (f : List Char) (row : List String) (rows : List (List String)) (t : List Char),
      csvScan (rowTailN gs ++ t) m f row rows
        = csvScan t .recStart [] []
            (rows ++ [row ++ String.mk f :: readBackRow gs]) := by
  induction gs with
  | nil =>
    intro m hm f row rows t
    rw [show rowTailN [] ++ t = '\n' :: t from rfl, csvScan_pend_newline m hm]
    simp [readBackRow]
  | cons g gs2 ih =>
    intro m hm f row rows t
    obtain ⟨m2, fo, hm2, hfo, hrun⟩ := csvScan_fieldN g
    rw [show rowTailN (g :: gs2) ++ t
          = ',' :: (encodeFieldN g ++ (rowTailN gs2 ++ t)) by simp [rowTailN],
      csvScan_pend_comma m hm, hrun, ih m2 hm2]
    rw [hfo]
    simp [readBackRow]

/-- Scanning one normalized record line whose first field is non-empty and
unquoted, starting at record start, pushes its read-back row. -/
theorem csvScan_rowPieceN (g : String) (gs : List String)
    (hg1 : g ≠ "") (hg2 : fieldNeedsQuotes g = false) :
    ∀ (t : List Char) (rows : List (List String)),
      csvScan (rowPieceN (g :: gs) ++ t) .recStart [] [] rows
        = csvScan t .recStart [] [] (rows ++ [readBackRow (g :: gs)]) := by
  intro t rows
  have hfree := not_fieldNeedsQuotes_chars g hg2
  cases hgd : g.data with
  | nil => exact absurd (String.ext hgd) hg1
  | cons c u =>
    have hcfree := hfree c (by rw [hgd]; simp)
    have hufree : ∀ d ∈ u, d ≠ ',' ∧ d ≠ '"' ∧ d ≠ '\n' := by
      intro d hd
      have hfd := hfree d (by rw [hgd]; simp [hd])
      exact ⟨hfd.1, hfd.2.1, hfd.2.2.2⟩
    rw [show rowPieceN (g :: gs) ++ t = c :: (u ++ (rowTailN gs ++ t)) by
        simp [rowPieceN, encodeFieldN, hg2, hgd],
      csvScan_recStart_other c hcfree.2.2.2 hcfree.2.1 hcfree.1,
      csvScan_unquoted_content u hufree,
      csvScan_rowTailN gs .inField (Or.inr (Or.inl rfl))]
    have hmk : (([] : List Char) ++ [c]) ++ u = g.data := by simp [hgd]
    rw [hmk]
    simp [readBackRow, readBackField, hg2]

/-- Every row starts with a non-empty field the writer leaves unquoted
(true of the header rows and of the generated numeric ids). -/
def rowsOK (rs : List (List String)) : Prop :=
  ∀ r ∈ rs, ∃ g gs, r = g :: gs ∧ g ≠ "" ∧ fieldNeedsQuotes g = false

theorem csvScan_encodeRowsN (rs : List (List String)) (h : rowsOK rs) :
    ∀ acc, csvScan (encodeRowsN rs) .recStart [] [] acc
      = .ok (acc ++ rs.map readBackRow) := by
  induction rs with
  | nil => intro acc; simp [encodeRowsN, csvScan]
  | cons r rs2 ih =>
    intro acc
    obtain ⟨g, gs, rfl, hg1, hg2⟩ := h r (by simp)
    rw [show encodeRowsN ((g :: gs) :: rs2)
          = rowPieceN (g :: gs) ++ encodeRowsN rs2 from rfl,
      csvScan_rowPieceN g gs hg1 hg2,
      ih (fun r2 hr2 => h r2 (by simp [hr2]))]
    simp

theorem readBackRow_length (r : List String) :
    (readBackRow r).length = r.length := by
  simp [readBackRow]

/-- `ReadAll` of the raw encoding of uniform-width rows with scannable first
fields: every row comes back, read back field by field. -/
theorem readAllCSV_encodeRows (rs : List (List String)) (h : rowsOK rs)
    (k : Nat) (hk : ∀ r ∈ rs, r.length = k) :
    readAllCSV (encodeRows rs) = .ok (rs.map readBackRow) := by
  unfold readAllCSV
  rw [normalizeCRLF_encodeRows, csvScan_encodeRowsN rs h []]
  simp only [List.nil_append]
  have hall : ∀ r ∈ rs.map readBackRow, r.length = k := by
    intro r hr
    obtain ⟨r1, hr1, rfl⟩ := List.mem_map.mp hr
    rw [readBackRow_length]
    exact hk r1 hr1
  cases hrs : rs.map readBackRow with
  | nil => simp
  | cons r0 rest =>
    have hr0 : r0.length = k := by
      apply hall
      rw [hrs]
      simp
    have hcond : ((r0 :: rest).all (fun r => r.length = r0.length)) = true := by
      rw [List.all_eq_true]
      intro r hr
      have h1 : r.length = k := by
        apply hall
        rw [hrs]
        exact hr
      simp [h1, hr0]
    simp [hcond]

/-! ### The generated `UnixNano` id field: decimal digits only -/

def digitChars : List Char := ['0', '1', '2', '3', '4', '5', '6', '7', '8', '9']

theorem digitChar_mem (m : Nat) (h : m < 10) : Nat.digitChar m ∈ digitChars := by
  interval_cases m <;> decide

theorem toDigitsCore_mem (fuel : Nat) : ∀ (n : Nat) (ds : List Char),
    (∀ c ∈ ds, c ∈ digitChars) →
    ∀ c ∈ Nat.toDigitsCore 10 fuel n ds, c ∈ digitChars := by
  induction fuel with
  | zero =>
    intro n ds hds c hc
    exact hds c hc
  | succ k ih =>
    intro n ds hds c hc
    rw [show Nat.toDigitsCore 10 (k + 1) n ds
          = (if n / 10 = 0 then Nat.digitChar (n % 10) :: ds
             else Nat.toDigitsCore 10 k (n / 10) (Nat.digitChar (n % 10) :: ds)) by
        conv_lhs => rw [Nat.toDigitsCore]] at hc
    have hdig : Nat.digitChar (n % 10) ∈ digitChars :=
      digitChar_mem _ (Nat.mod_lt n (by omega))
    by_cases h0 : n / 10 = 0
    · rw [if_pos h0] at hc
      rcases List.mem_cons.mp hc with rfl | hc2
      · exact hdig
      · exact hds c hc2
    · rw [if_neg h0] at hc
      refine ih (n / 10) _ ?_ c hc
      intro d hd
      rcases List.mem_cons.mp hd with rfl | hd2
      · exact hdig
      · exact hds d hd2

theorem toDigitsCore_length_le (fuel : Nat) : ∀ (n : Nat) (ds : List Char),
    ds.length ≤ (Nat.toDigitsCore 10 fuel n ds).length := by
  induction fuel with
  | zero => intro n ds; exact Nat.le_refl _
  | succ k ih =>
    intro n ds
    rw [show Nat.toDigitsCore 10 (k + 1) n ds
          = (if n / 10 = 0 then Nat.digitChar (n % 10) :: ds
             else Nat.toDigitsCore 10 k (n / 10) (Nat.digitChar (n % 10) :: ds)) by
        conv_lhs => rw [Nat.toDigitsCore]]
    by_cases h0 : n / 10 = 0
    · rw [if_pos h0]
      simp
    · rw [if_neg h0]
      have h2 := ih (n / 10) (Nat.digitChar (n % 10) :: ds)
      simp only [List.length_cons] at h2
      omega

theorem repr_data_digits (n : Nat) : ∀ c ∈ (Nat.repr n).data, c ∈ digitChars := by
  intro c hc
  exact toDigitsCore_mem (n + 1) n [] (by simp) c hc

theorem repr_data_ne_nil (n : Nat) : (Nat.repr n).data ≠ [] := by
  intro h0
  have h1 : (Nat.repr n).data = Nat.toDigitsCore 10 (n + 1) n [] := rfl
  have h2 : Nat.toDigitsCore 10 (n + 1) n []
      = (if n / 10 = 0 then Nat.digitChar (n % 10) :: []
         else Nat.toDigitsCore 10 n (n / 10) (Nat.digitChar (n % 10) :: [])) := by
    conv_lhs => rw [Nat.toDigitsCore]
  rw [h1, h2] at h0
  by_cases hq : n / 10 = 0
  · rw [if_pos hq] at h0
    cases h0
  · rw [if_neg hq] at h0
    have h3 := toDigitsCore_length_le n (n / 10) (Nat.digitChar (n % 10) :: [])
    rw [h0] at h3
    simp at h3

theorem repr_ne_empty (n : Nat) : Nat.repr n ≠ "" :=
  fun h => repr_data_ne_nil n (congrArg String.data h)

theorem fieldNeedsQuotes_repr (n : Nat) : fieldNeedsQuotes (Nat.repr n) = false := by
  have h1 : Nat.repr n ≠ "" := repr_ne_empty n
  have h2 : Nat.repr n ≠ "\\." := by
    intro h
    have hm : '\\' ∈ (Nat.repr n).data := by
      rw [h]
      decide
    exact absurd (repr_data_digits n '\\' hm) (by decide)
  have h3 : ((Nat.repr n).data.any
      (fun c => c = ',' || c = '"' || c = '\r' || c = '\n')) = false := by
    rw [List.any_eq_false]
    intro c hc
    have hd := repr_data_digits n c hc
    fin_cases hd <;> decide
  unfold fieldNeedsQuotes
  rw [if_neg h1, if_neg h2, if_neg (by simp [h3])]
  cases hd : (Nat.repr n).data with
  | nil => rfl
  | cons c t =>
    have hc : c ∈ digitChars := repr_data_digits n c (by rw [hd]; simp)
    show isSpaceGo c = false
    fin_cases hc <;> decide

theorem repr_ne_id (n : Nat) : Nat.repr n ≠ "id" := by
  intro h
  have hm : 'i' ∈ (Nat.repr n).data := by
    rw [h]
    decide
  exact absurd (repr_data_digits n 'i' hm) (by decide)

theorem readBackField_repr (n : Nat) :
    readBackField (Nat.repr n) = Nat.repr n := by
  simp [readBackField, fieldNeedsQuotes_repr n]

/-! ### Content of a sequence of appends -/

theorem encodeRowTail_ne_nil (gs : List String) : encodeRowTail gs ≠ [] := by
  cases gs <;> simp [encodeRowTail]

theorem encodeRow_ne_nil (r : List String) : encodeRow r ≠ [] := by
  cases r with
  | nil => simp [encodeRow]
  | cons g gs =>
    simp [encodeRow, encodeRowTail_ne_nil gs]

theorem isEmpty_false_of_ne {l : List Char} (h : l ≠ []) : l.isEmpty = false := by
  cases l with
  | nil => exact absurd rfl h
  | cons a t => rfl

theorem writeToCSV4_content (now : Nat) (s tx ts : String) (st : CSVFile) :
    (writeToCSV4 now s tx ts st).content
      = st.content ++ (if st.content.isEmpty then encodeRow headerRow4 else [])
        ++ encodeRow [Nat.repr now, s, tx, ts] := by
  unfold writeToCSV4
  cases hc : st.content <;> simp [hc]

theorem appendAll_content_of_ne (es : List LogEntry) : ∀ st : CSVFile,
    st.content ≠ [] →
    (appendAll es st).content = st.content ++ encodeRows (es.map rowOfEntry) := by
  induction es with
  | nil => intro st h; simp [appendAll, encodeRows]
  | cons e es2 ih =>
    intro st h
    rw [show appendAll (e :: es2) st = appendAll es2 (writeEntry e st) from rfl]
    have hcontent : (writeEntry e st).content
        = st.content ++ encodeRow (rowOfEntry e) := by
      rw [writeEntry, writeToCSV_content]
      rw [isEmpty_false_of_ne h]
      simp [rowOfEntry]
    rw [ih (writeEntry e st)
        (by rw [hcontent]; simp [h]),
      hcontent]
    simp [encodeRows]

theorem appendAll_from_empty (e : LogEntry) (es : List LogEntry) :
    (appendAll (e :: es) emptyCSV).content
      = encodeRows (headerRow :: rowOfEntry e :: es.map rowOfEntry) := by
  rw [show appendAll (e :: es) emptyCSV = appendAll es (writeEntry e emptyCSV) from rfl]
  have h1 : (writeEntry e emptyCSV).content
      = encodeRow headerRow ++ encodeRow (rowOfEntry e) := by
    rw [writeEntry, writeToCSV_content]
    simp [emptyCSV, rowOfEntry]
  rw [appendAll_content_of_ne es _
      (by rw [h1]; simp [encodeRow_ne_nil]), h1]
  simp [encodeRows]

theorem appendAll4_content_of_ne (es : List LogEntry4) : ∀ st : CSVFile,
    st.content ≠ [] →
    (appendAll4 es st).content = st.content ++ encodeRows (es.map rowOfEntry4) := by
  induction es with
  | nil => intro st h; simp [appendAll4, encodeRows]
  | cons e es2 ih =>
    intro st h
    rw [show appendAll4 (e :: es2) st = appendAll4 es2 (writeEntry4 e st) from rfl]
    have hcontent : (writeEntry4 e st).content
        = st.content ++ encodeRow (rowOfEntry4 e) := by
      rw [writeEntry4, writeToCSV4_content]
      rw [isEmpty_false_of_ne h]
      simp [rowOfEntry4]
    rw [ih (writeEntry4 e st)
        (by rw [hcontent]; simp [h]),
      hcontent]
    simp [encodeRows]

theorem appendAll4_from_empty (e : LogEntry4) (es : List LogEntry4) :
    (appendAll4 (e :: es) emptyCSV).content
      = encodeRows (headerRow4 :: rowOfEntry4 e :: es.map rowOfEntry4) := by
  rw [show appendAll4 (e :: es) emptyCSV
        = appendAll4 es (writeEntry4 e emptyCSV) from rfl]
  have h1 : (writeEntry4 e emptyCSV).content
      = encodeRow headerRow4 ++ encodeRow (rowOfEntry4 e) := by
    rw [writeEntry4, writeToCSV4_content]
    simp [emptyCSV, rowOfEntry4]
  rw [appendAll4_content_of_ne es _
      (by rw [h1]; simp [encodeRow_ne_nil]), h1]
  simp [encodeRows]

/-! ### Claims C3 and C4 -/

theorem rowsOK_entries (es : List LogEntry) :
    rowsOK (headerRow :: es.map rowOfEntry) := by
  intro r hr
  rcases List.mem_cons.mp hr with rfl | hr2
  · exact ⟨"id", ["phone", "type", "text", "datetime"], rfl, by decide, by decide⟩
  · obtain ⟨e, _, rfl⟩ := List.mem_map.mp hr2
    exact ⟨Nat.repr e.nowNanos, [e.sender, e.messageType, e.message, e.timestamp],
      rfl, repr_ne_empty e.nowNanos, fieldNeedsQuotes_repr e.nowNanos⟩

theorem rowsOK_entries4 (es : List LogEntry4) :
    rowsOK (headerRow4 :: es.map rowOfEntry4) := by
  intro r hr
  rcases List.mem_cons.mp hr with rfl | hr2
  · exact ⟨"id", ["phone", "text", "datetime"], rfl, by decide, by decide⟩
  · obtain ⟨e, _, rfl⟩ := List.mem_map.mp hr2
    exact ⟨Nat.repr e.nowNanos, [e.sender, e.message, e.timestamp],
      rfl, repr_ne_empty e.nowNanos, fieldNeedsQuotes_repr e.nowNanos⟩

/-- The condition under which a record survives the reader verbatim: none of
its four caller-supplied fields contains a CR immediately followed by LF. -/
def entryCRLFfree (e : LogEntry) : Prop :=
  containsCRLF e.sender.data = false ∧ containsCRLF e.messageType.data = false
  ∧ containsCRLF e.message.data = false ∧ containsCRLF e.timestamp.data = false

theorem readBackField_of_crlf_free (f : String)
    (h : containsCRLF f.data = false) : readBackField f = f := by
  unfold readBackField
  by_cases hq : fieldNeedsQuotes f
  · rw [if_pos hq, normalizeCRLF_of_not_containsCRLF f.data h]
  · rw [if_neg hq]

theorem readBackRow_entry (e : LogEntry) (h : entryCRLFfree e) :
    readBackRow (rowOfEntry e) = rowOfEntry e := by
  obtain ⟨h1, h2, h3, h4⟩ := h
  simp [readBackRow, rowOfEntry, readBackField_repr,
    readBackField_of_crlf_free _ h1, readBackField_of_crlf_free _ h2,
    readBackField_of_crlf_free _ h3, readBackField_of_crlf_free _ h4]

/-- **C3 (amended).** For every record whose sender, kind, payload-summary
and timestamp strings contain no CR-LF pair, appending it to the Append Log
(over any log state built by previous appends from an empty or absent file)
and then invoking the read-all endpoint yields that record verbatim,
field for field, among the returned rows.  (Arbitrary strings do not round
trip: the reader collapses CR-LF inside quoted fields, see the
counterexample.) -/
theorem csv_append_roundtrip (prev : List LogEntry) (e : LogEntry)
    (h : entryCRLFfree e) :
    ∃ rows, getCSVContentsHandler (some (appendAll (prev ++ [e]) emptyCSV))
        = .ok rows
      ∧ rowOfEntry e ∈ rows := by
  have hk : ∀ r ∈ headerRow :: (prev ++ [e]).map rowOfEntry, r.length = 5 := by
    intro r hr
    rcases List.mem_cons.mp hr with rfl | hr2
    · rfl
    · obtain ⟨e2, _, rfl⟩ := List.mem_map.mp hr2
      rfl
  cases hpe : prev ++ [e] with
  | nil => exact absurd hpe (by simp)
  | cons e0 rest =>
    have hcontent := appendAll_from_empty e0 rest
    have hread : readAllCSV (appendAll (e0 :: rest) emptyCSV).content
        = .ok ((headerRow :: (e0 :: rest).map rowOfEntry).map readBackRow) := by
      rw [hcontent,
        show headerRow :: rowOfEntry e0 :: rest.map rowOfEntry
          = headerRow :: (e0 :: rest).map rowOfEntry from rfl]
      exact readAllCSV_encodeRows _ (rowsOK_entries (e0 :: rest)) 5
        (by rw [← hpe]; exact hk)
    refine ⟨(headerRow :: (e0 :: rest).map rowOfEntry).map readBackRow, ?_, ?_⟩
    · rw [← hpe]
      rw [hpe]
      simp only [getCSVContentsHandler, hread]
    · have hmem : rowOfEntry e ∈ (e0 :: rest).map rowOfEntry := by
        rw [← hpe]
        exact List.mem_map_of_mem rowOfEntry (by simp)
      have hmem2 : readBackRow (rowOfEntry e)
          ∈ ((e0 :: rest).map rowOfEntry).map readBackRow :=
        List.mem_map_of_mem readBackRow hmem
      rw [readBackRow_entry e h] at hmem2
      exact List.mem_cons_of_mem _ hmem2

/-- Witness for C3 at a concrete input. -/
theorem csv_append_roundtrip_witness :
    ∃ rows, getCSVContentsHandler
        (some (appendAll ([] ++ [⟨7, "snd", "Image", "hello, world", "ts"⟩]) emptyCSV))
        = .ok rows
      ∧ rowOfEntry ⟨7, "snd", "Image", "hello, world", "ts"⟩ ∈ rows :=
  csv_append_roundtrip [] ⟨7, "snd", "Image", "hello, world", "ts"⟩
    ⟨by decide, by decide, by decide, by decide⟩

/-- **C3 counterexample.** A record whose payload summary contains a CR-LF
pair does not come back verbatim: the reader normalizes the pair to a bare
LF, so the appended row is absent from the rows the read-all endpoint
returns. -/
theorem csv_roundtrip_cex :
    readAllCSV (writeToCSV 7 "snd" "Image" "a\r\nb" "ts" emptyCSV).content
      = .ok [["id", "phone", "type", "text", "datetime"],
             ["7", "snd", "Image", "a\nb", "ts"]]
    ∧ ["7", "snd", "Image", "a\r\nb", "ts"]
        ∉ [["id", "phone", "type", "text", "datetime"],
           ["7", "snd", "Image", "a\nb", "ts"]] := by
  decide

/-- **C4.** Each append writes the header iff the log file is empty and then
exactly one record line; consequently any non-empty sequence of appends from
an empty or absent file yields a log whose parse has the header
`id, phone, type, text, datetime` (resp. the 4-column variant without
`type`) exactly once, as the first row. -/
theorem csv_header_exactly_once (e : LogEntry) (st : CSVFile)
    (e0 : LogEntry) (es : List LogEntry)
    (e40 : LogEntry4) (es4 : List LogEntry4) :
    ((writeEntry e st).content
      = st.content ++ (if st.content.isEmpty then encodeRow headerRow else [])
        ++ encodeRow (rowOfEntry e))
    ∧ (∃ rws, readAllCSV (appendAll (e0 :: es) emptyCSV).content
        = .ok (headerRow :: rws) ∧ headerRow ∉ rws)
    ∧ (∃ rws4, readAllCSV (appendAll4 (e40 :: es4) emptyCSV).content
        = .ok (headerRow4 :: rws4) ∧ headerRow4 ∉ rws4) := by
  refine ⟨by rw [writeEntry, writeToCSV_content]; rfl, ?_, ?_⟩
  · refine ⟨((e0 :: es).map rowOfEntry).map readBackRow, ?_, ?_⟩
    · rw [appendAll_from_empty e0 es,
        show headerRow :: rowOfEntry e0 :: es.map rowOfEntry
          = headerRow :: (e0 :: es).map rowOfEntry from rfl,
        readAllCSV_encodeRows _ (rowsOK_entries (e0 :: es)) 5 ?_]
      · rw [show (headerRow :: (e0 :: es).map rowOfEntry).map readBackRow
            = readBackRow headerRow :: ((e0 :: es).map rowOfEntry).map readBackRow
            from rfl]
        rw [show readBackRow headerRow = headerRow from by decide]
      · intro r hr
        rcases List.mem_cons.mp hr with rfl | hr2
        · rfl
        · obtain ⟨e2, _, rfl⟩ := List.mem_map.mp hr2
          rfl
    · intro hmem
      obtain ⟨r1, hr1, hr2⟩ := List.mem_map.mp hmem
      obtain ⟨e2, _, rfl⟩ := List.mem_map.mp hr1
      have hhead : readBackRow (rowOfEntry e2)
          = Nat.repr e2.nowNanos :: readBackRow
              [e2.sender, e2.messageType, e2.message, e2.timestamp] := by
        simp [readBackRow, rowOfEntry, readBackField_repr]
      rw [hhead] at hr2
      have : Nat.repr e2.nowNanos = "id" := by
        have := congrArg List.head? hr2
        simpa [headerRow] using this
      exact repr_ne_id e2.nowNanos this
  · refine ⟨((e40 :: es4).map rowOfEntry4).map readBackRow, ?_, ?_⟩
    · rw [appendAll4_from_empty e40 es4,
        show headerRow4 :: rowOfEntry4 e40 :: es4.map rowOfEntry4
          = headerRow4 :: (e40 :: es4).map rowOfEntry4 from rfl,
        readAllCSV_encodeRows _ (rowsOK_entries4 (e40 :: es4)) 4 ?_]
      · rw [show (headerRow4 :: (e40 :: es4).map rowOfEntry4).map readBackRow
            = readBackRow headerRow4 :: ((e40 :: es4).map rowOfEntry4).map readBackRow
            from rfl]
        rw [show readBackRow headerRow4 = headerRow4 from by decide]
      · intro r hr
        rcases List.mem_cons.mp hr with rfl | hr2
        · rfl
        · obtain ⟨e2, _, rfl⟩ := List.mem_map.mp hr2
          rfl
    · intro hmem
      obtain ⟨r1, hr1, hr2⟩ := List.mem_map.mp hmem
      obtain ⟨e2, _, rfl⟩ := List.mem_map.mp hr1
      have hhead : readBackRow (rowOfEntry4 e2)
          = Nat.repr e2.nowNanos :: readBackRow
              [e2.sender, e2.message, e2.timestamp] := by
        simp [readBackRow, rowOfEntry4, readBackField_repr]
      rw [hhead] at hr2
      have : Nat.repr e2.nowNanos = "id" := by
        have := congrArg List.head? hr2
        simpa [headerRow4] using this
      exact repr_ne_id e2.nowNanos this

end Whatsmeow
